import Mathlib

/-!
# Verification of the Medical NER pipeline (`src/pipelines/medical_ner_pipeline.py`)

A shallow embedding of the pipeline's data model and operations, translated
from the Python source.  Confidences and timestamps are modelled as rationals
(`ℚ`); Python dictionaries become association lists or closed records; the
regular-expression engine of the `re` module is passed in as an explicit
matcher where only the classifier's control flow is at stake, and is embedded
directly (word-boundary keyword matching, whitespace collapse,
digit/letter splitting) where the claims depend on the matching itself.
-/

namespace MedicalNER

/-- `EntityType` enum from the source. -/
inductive EntityType where
  | DISEASE
  | SYMPTOM
  | MEDICATION
  | DOSAGE
  | ANATOMY
  | UNKNOWN
deriving DecidableEq, Repr

/-- The open `metadata` dictionary of `MedicalEntity`, modelled as a closed
record of the keys the pipeline actually writes (`linked_medication`,
`context`, `review_status`). -/
structure Metadata where
  linked_medication : Option String := none
  context : Option String := none
  review_status : Option String := none
deriving DecidableEq, Repr

/-- The `MedicalEntity` dataclass. -/
structure MedicalEntity where
  text : String
  type : EntityType
  start_pos : ℤ
  end_pos : ℤ
  confidence : ℚ
  umls_code : Option String := none
  normalized_text : Option String := none
  metadata : Option Metadata := none
deriving DecidableEq, Repr

/-- The threshold part of `NERConfig`. -/
structure NERConfig where
  AUTO_ACCEPT_THRESHOLD : ℚ
  REVIEW_THRESHOLD : ℚ
  REJECT_THRESHOLD : ℚ
deriving DecidableEq, Repr

/-- The default values from the source: 0.50 / 0.30 / 0.20. -/
def defaultConfig : NERConfig :=
  { AUTO_ACCEPT_THRESHOLD := 1/2, REVIEW_THRESHOLD := 3/10, REJECT_THRESHOLD := 1/5 }

/-- `entity.metadata = entity.metadata or {}` followed by
`entity.metadata["review_status"] = s`. -/
def setReviewStatus (e : MedicalEntity) (s : String) : MedicalEntity :=
  { e with metadata := some { e.metadata.getD {} with review_status := some s } }

/-- One entity's fate at the confidence gate
(`MedicalNERPipeline._filter_by_confidence`, loop body). -/
def gateOne (cfg : NERConfig) (e : MedicalEntity) : Option MedicalEntity :=
  if e.confidence ≥ cfg.AUTO_ACCEPT_THRESHOLD then
    some (setReviewStatus e "auto_accepted")
  else if e.confidence ≥ cfg.REVIEW_THRESHOLD then
    some (setReviewStatus e "needs_review")
  else
    none

/-- `MedicalNERPipeline._filter_by_confidence`: keep accepted/review entities
in order, drop the rest. -/
def filterByConfidence (cfg : NERConfig) (entities : List MedicalEntity) : List MedicalEntity :=
  entities.filterMap (gateOne cfg)

/-! ## Entity fusion (`MedicalNERPipeline._classify_entities`) -/

/-- One candidate span, as produced by `_extract_entity_candidates`
(dict with keys `text`, `start`, `end`, `score`). -/
structure Candidate where
  text : String
  start : ℤ
  stop : ℤ
  score : ℚ
deriving DecidableEq, Repr

/-- The dict returned by `UMLSClient.lookup_term` as seen by the fusion step
(after `EntityType[umls_result["entity_type"]]`). -/
structure UmlsOutcome where
  entity_type : EntityType
  umls_code : Option String
  confidence : ℚ
deriving DecidableEq, Repr

/-- The fused classification decision for one candidate: rule classifier
first; if it produced no type or confidence < 0.8, consult UMLS and adopt its
answer when strictly more confident.  Returns
(entity type, classification confidence, umls code). -/
def fuseClassification (rule : String → Option EntityType × ℚ) (enableUmls : Bool)
    (umls : String → UmlsOutcome) (text : String) :
    Option EntityType × ℚ × Option String :=
  let r := rule text
  if r.1 = none ∨ r.2 < 4/5 then
    if enableUmls then
      let u := umls text
      if u.confidence > r.2 then (some u.entity_type, u.confidence, u.umls_code)
      else (r.1, r.2, none)
    else (r.1, r.2, none)
  else (r.1, r.2, none)

/-- Loop body of `_classify_entities`: build a `MedicalEntity` when a type was
assigned; final confidence is `confidence * cand["score"]`. -/
def classifyOne (rule : String → Option EntityType × ℚ) (enableUmls : Bool)
    (umls : String → UmlsOutcome) (cand : Candidate) : Option MedicalEntity :=
  match fuseClassification rule enableUmls umls cand.text with
  | (some ty, confidence, umls_code) =>
      some { text := cand.text, type := ty, start_pos := cand.start, end_pos := cand.stop,
             confidence := confidence * cand.score, umls_code := umls_code }
  | (none, _, _) => none

/-- `MedicalNERPipeline._classify_entities`. -/
def classifyEntities (rule : String → Option EntityType × ℚ) (enableUmls : Bool)
    (umls : String → UmlsOutcome) (cands : List Candidate) : List MedicalEntity :=
  cands.filterMap (classifyOne rule enableUmls umls)

/-- Python `str.lower()` (ASCII). -/
def pyLower (s : String) : String := ⟨s.data.map Char.toLower⟩

/-- Python `str.strip()`: drop leading and trailing whitespace. -/
def pyStrip (s : String) : String :=
  ⟨((s.data.dropWhile Char.isWhitespace).reverse.dropWhile Char.isWhitespace).reverse⟩

/-! ## Rule-based classifier (`RuleBasedClassifier`)

The regex pattern groups of `_initialize_patterns` are kept as their source
strings; the `re` engine (`pattern.search` / `pattern.fullmatch`) is an
explicit parameter of `classify`, since the claims about this component
concern its control flow (group order, first-match, fixed confidences), not
the regex language itself. -/

/-- The two MEDICATION patterns (drug suffixes; common drug names). -/
def medicationRulePats : List String :=
  ["\\b\\w+(olol|pril|pine|zole|cillin|mycin|vir|mab|nib|stat|pram|zepam|done|sone|ide|ine|ate)\\b",
   "\\b(metformin|insulin|aspirin|ibuprofen|acetaminophen|tylenol|advil|amoxicillin|lisinopril|metoprolol|atorvastatin|lipitor|omeprazole|levothyroxine|gabapentin|prednisone|hydrochlorothiazide|furosemide|amlodipine|losartan|simvastatin|pantoprazole|warfarin|tramadol)\\b"]

/-- The four DOSAGE patterns. -/
def dosageRulePats : List String :=
  ["\\d+\\.?\\d*\\s?(mg|milligrams?|mcg|micrograms?|g|grams?|ml|milliliters?|cc|units?|iu|tablets?|pills?|caps?|capsules?|drops?|puffs?)",
   "\\b(once|twice|three times|four times)\\s+(daily|a day|per day)",
   "\\b(bid|tid|qid|prn|qd|qhs|qod)\\b",
   "\\b(every|each)\\s+\\d+\\s+(hours?|days?|weeks?|months?)"]

/-- The three SYMPTOM patterns. -/
def symptomRulePats : List String :=
  ["\\b\\w*\\s*(pain|ache|soreness|tenderness|discomfort)\\b",
   "\\b(fever|chills|fatigue|weakness|nausea|vomiting|diarrhea|constipation|cough|shortness of breath|dyspnea|headache|dizziness|vertigo|rash|itching|pruritus|swelling|edema|bleeding|discharge|numbness|tingling|paresthesia|insomnia|anxiety|depression)\\b",
   "\\b(acute|chronic|severe|mild|moderate|intermittent|constant|sudden|gradual|sharp|dull|burning|throbbing|stabbing)\\s+\\w+"]

/-- The two DISEASE patterns. -/
def diseaseRulePats : List String :=
  ["\\b\\w+(itis|osis|emia|oma|pathy|syndrome|disease|disorder|deficiency)\\b",
   "\\b(diabetes|hypertension|asthma|copd|pneumonia|bronchitis|arthritis|osteoporosis|cancer|tumor|malignancy|infection|sepsis|stroke|cva|mi|myocardial infarction|heart failure|chf|atrial fibrillation|afib|anemia|hypothyroidism|hyperthyroidism|depression|anxiety|bipolar|schizophrenia|alzheimer|dementia|parkinson|epilepsy|seizure)\\b"]

/-- The two ANATOMY patterns. -/
def anatomyRulePats : List String :=
  ["\\b(head|brain|skull|eye|ear|nose|mouth|throat|neck|chest|heart|lung|liver|kidney|stomach|intestine|colon|arm|leg|foot|hand|finger|toe|back|spine|bone|muscle|skin|blood|nerve|vessel|artery|vein)\\b",
   "\\b(cardiac|pulmonary|hepatic|renal|gastric|cerebral|thoracic|abdominal|cervical|lumbar|cranial)\\b"]

/-- The pattern-group table of `_initialize_patterns`, in the dict's insertion
order — which Python (3.7+) preserves in `compile_patterns` and in the
`for entity_type, patterns in self.compiled_patterns.items()` loop of
`classify`: MEDICATION, DOSAGE, SYMPTOM, DISEASE, ANATOMY. -/
def rulePatternGroups : List (EntityType × List String) :=
  [(EntityType.MEDICATION, medicationRulePats),
   (EntityType.DOSAGE, dosageRulePats),
   (EntityType.SYMPTOM, symptomRulePats),
   (EntityType.DISEASE, diseaseRulePats),
   (EntityType.ANATOMY, anatomyRulePats)]

/-- The nested group/pattern loop of `RuleBasedClassifier.classify`: the first
pattern of the first group with a `search` hit wins, with confidence 0.95 on a
`fullmatch` of that pattern and 0.85 otherwise. -/
def classifyGroups (search fullmatch : String → String → Bool) (t : String) :
    List (EntityType × List String) → Option EntityType × ℚ
  | [] => (none, 0)
  | (ty, pats) :: rest =>
      match pats.find? (fun p => search p t) with
      | some p => (some ty, if fullmatch p t then 19/20 else 17/20)
      | none => classifyGroups search fullmatch t rest

/-- `RuleBasedClassifier.classify`: lower-case and strip the candidate, then
scan the groups in table order. -/
def ruleClassify (search fullmatch : String → String → Bool) (text : String) :
    Option EntityType × ℚ :=
  classifyGroups search fullmatch (pyStrip (pyLower text)) rulePatternGroups

/-! ## Knowledge-base client (`UMLSClient`)

The client is embedded as an explicit state-passing function.  HTTP responses
come from a `NetOracle`; every function returns its value together with the
updated client state and the number of network round trips it issued, so that
the cache-idempotence and failure-degradation claims can be stated exactly. -/

/-- One ranked search result (`ui`, `name` of a concept). -/
structure UmlsConcept where
  ui : String
  name : String
deriving DecidableEq, Repr

/-- The metadata dict of a lookup result, as a closed sum of the three shapes
the source writes: an error marker, the no-results marker, and the success
record. -/
inductive UmlsMeta where
  | err (message : String)
  | noResults
  | success (conceptName : String) (semanticTypes : List String) (nameSimilarity : ℚ)
deriving DecidableEq, Repr

/-- The dict returned by `UMLSClient.lookup_term`. -/
structure UmlsResult where
  entity_type : String
  umls_code : Option String
  confidence : ℚ
  metadata : Option UmlsMeta
deriving DecidableEq, Repr

/-- One row of the `umls_cache` sqlite table. -/
structure CacheRow where
  term : String
  entity_type : String
  umls_code : Option String
  confidence : ℚ
  metadata : Option UmlsMeta
  timestamp : ℚ
deriving DecidableEq, Repr

/-- Process-lifetime client state: the cached granting-credential URL with its
expiry, and the durable result cache. -/
structure ClientState where
  tgt_url : Option String
  tgt_expiry : ℚ
  cache : List CacheRow
deriving DecidableEq, Repr

/-- Network responses.  `none` stands for any failure the source maps to the
same degraded value (non-success HTTP status, missing header, timeout, or a
raised exception caught by the corresponding `except` block). -/
structure NetOracle where
  authResp : Option String
  ticketResp : Option String
  searchExact : String → Option (List UmlsConcept)
  searchApprox : String → Option (List UmlsConcept)
  detailResp : String → Option (List String)

/-- `UMLSClient._get_cached_result`: look the lower-cased, stripped term up;
an entry older than 30 days is treated as absent. -/
def getCachedResult (useCache : Bool) (now : ℚ) (cache : List CacheRow) (term : String) :
    Option UmlsResult :=
  if useCache then
    match cache.find? (fun row => row.term = pyStrip (pyLower term)) with
    | some row =>
        if now - row.timestamp < 30 * 24 * 3600 then
          some { entity_type := row.entity_type, umls_code := row.umls_code,
                 confidence := row.confidence, metadata := row.metadata }
        else none
    | none => none
  else none

/-- `UMLSClient._cache_result`: upsert keyed by the lower-cased, stripped term
(`INSERT OR REPLACE`). -/
def cacheResult (useCache : Bool) (now : ℚ) (cache : List CacheRow) (term : String)
    (r : UmlsResult) : List CacheRow :=
  if useCache then
    let key := pyStrip (pyLower term)
    { term := key, entity_type := r.entity_type, umls_code := r.umls_code,
      confidence := r.confidence, metadata := r.metadata, timestamp := now } ::
      cache.filter (fun row => row.term ≠ key)
  else cache

/-- `UMLSClient._get_tgt_url`: reuse an unexpired granting credential; else
one auth round trip, caching an 8-hour expiry on success. -/
def getTgtUrl (o : NetOracle) (now : ℚ) (st : ClientState) :
    Option String × ClientState × ℕ :=
  if st.tgt_url.isSome ∧ now < st.tgt_expiry then (st.tgt_url, st, 0)
  else
    match o.authResp with
    | some loc => (some loc, { st with tgt_url := some loc, tgt_expiry := now + 8 * 3600 }, 1)
    | none => (none, st, 1)

/-- `UMLSClient._get_fresh_service_ticket`: one ticket round trip per call
against the granting credential. -/
def getFreshServiceTicket (o : NetOracle) (now : ℚ) (st : ClientState) :
    Option String × ClientState × ℕ :=
  match getTgtUrl o now st with
  | (none, st1, n1) => (none, st1, n1)
  | (some _, st1, n1) =>
      match o.ticketResp with
      | some tk => (some tk, st1, n1 + 1)
      | none => (none, st1, n1 + 1)

/-- `UMLSClient._search_umls_concept`: exact search first; on an empty (but
successful) exact result, mint a fresh ticket and retry approximately.  Every
failure yields `[]`. -/
def searchUmlsConcept (o : NetOracle) (now : ℚ) (st : ClientState) (term : String) :
    List UmlsConcept × ClientState × ℕ :=
  match getFreshServiceTicket o now st with
  | (none, st1, n1) => ([], st1, n1)
  | (some _, st1, n1) =>
      match o.searchExact term with
      | none => ([], st1, n1 + 1)
      | some results =>
          if results ≠ [] then (results, st1, n1 + 1)
          else
            match getFreshServiceTicket o now st1 with
            | (none, st2, n2) => ([], st2, n1 + 1 + n2)
            | (some _, st2, n2) =>
                match o.searchApprox term with
                | none => ([], st2, n1 + 1 + n2 + 1)
                | some rs => (rs, st2, n1 + 1 + n2 + 1)

/-- `cui.startswith('C') and len(cui) == 8`. -/
def cuiIsStandard (cui : String) : Bool :=
  "C".data.isPrefixOf cui.data && cui.data.length = 8

/-- `UMLSClient._get_concept_details`: a ticket, then (for a standard CUI) one
detail round trip; the value is the list of semantic-type URIs, `none` when
the source returns `{}`. -/
def getConceptDetails (o : NetOracle) (now : ℚ) (st : ClientState) (cui : String) :
    Option (List String) × ClientState × ℕ :=
  match getFreshServiceTicket o now st with
  | (none, st1, n1) => (none, st1, n1)
  | (some _, st1, n1) =>
      if cuiIsStandard cui then
        match o.detailResp cui with
        | some uris => (some uris, st1, n1 + 1)
        | none => (none, st1, n1 + 1)
      else (none, st1, n1)

/-- The tail of `s` after the last occurrence of `sep`, `none` when `sep`
does not occur. -/
def lastSplitTail (sep : List Char) : List Char → Option (List Char)
  | [] => none
  | c :: cs =>
      match lastSplitTail sep cs with
      | some t => some t
      | none =>
          if sep.isPrefixOf (c :: cs) then some ((c :: cs).drop sep.length) else none

/-- T-code extraction from a semantic-type URI: when `/TUI/` occurs, the part
after its last occurrence (`uri.split('/TUI/')[-1]`); otherwise skipped. -/
def extractTCode (uri : String) : Option String :=
  (lastSplitTail "/TUI/".data uri.data).map (fun t => ⟨t⟩)

/-- The URI loop of `lookup_term` collecting T-codes. -/
def extractSemanticTypes (uris : List String) : List String :=
  uris.filterMap extractTCode

/-- The semantic-type → entity-type table of `_map_semantic_type_to_entity`. -/
def semanticMapping : List (String × String) :=
  [("T047", "DISEASE"), ("T046", "DISEASE"), ("T048", "DISEASE"), ("T049", "DISEASE"),
   ("T019", "DISEASE"), ("T020", "DISEASE"), ("T037", "DISEASE"), ("T050", "DISEASE"),
   ("T184", "SYMPTOM"), ("T033", "DISEASE"), ("T034", "SYMPTOM"), ("T201", "SYMPTOM"),
   ("T121", "MEDICATION"), ("T195", "MEDICATION"), ("T200", "MEDICATION"),
   ("T203", "MEDICATION"), ("T122", "MEDICATION"), ("T103", "MEDICATION"),
   ("T109", "MEDICATION"), ("T114", "MEDICATION"), ("T115", "MEDICATION"),
   ("T116", "MEDICATION"), ("T118", "MEDICATION"), ("T119", "MEDICATION"),
   ("T120", "MEDICATION"), ("T125", "MEDICATION"), ("T126", "MEDICATION"),
   ("T127", "MEDICATION"), ("T129", "MEDICATION"), ("T130", "MEDICATION"),
   ("T131", "MEDICATION"),
   ("T017", "ANATOMY"), ("T029", "ANATOMY"), ("T023", "ANATOMY"), ("T030", "ANATOMY"),
   ("T031", "ANATOMY"), ("T022", "ANATOMY"), ("T025", "ANATOMY"), ("T026", "ANATOMY"),
   ("T018", "ANATOMY"), ("T021", "ANATOMY"), ("T024", "ANATOMY"), ("T028", "ANATOMY")]

/-- The bucket keys of `confidence_scores`, in dict insertion order (the order
Python's `max(confidence_scores, key=confidence_scores.get)` scans, taking the
first maximum). -/
def bucketNames : List String := ["DISEASE", "SYMPTOM", "MEDICATION", "ANATOMY"]

/-- The additive score of one bucket: +0.9 per recognized semantic-type code
mapping to it. -/
def bucketScore (semTypes : List String) (b : String) : ℚ :=
  (9/10) * ((semTypes.filter (fun st => semanticMapping.lookup st = some b)).length : ℚ)

/-- `max(confidence_scores, key=confidence_scores.get)`: first bucket with
the (strictly) greatest score wins. -/
def maxBucket (f : String → ℚ) : String × ℚ :=
  bucketNames.foldl (fun acc b => if f b > acc.2 then (b, f b) else acc)
    ("DISEASE", f "DISEASE")

/-- `UMLSClient._map_semantic_type_to_entity`. -/
def mapSemanticTypeToEntity (semTypes : List String) : String × ℚ :=
  let best := maxBucket (bucketScore semTypes)
  if best.2 > 0 then (best.1, min best.2 (19/20)) else ("UNKNOWN", 1/2)

/-- Whether `p` occurs as a substring of `s` (Python `p in s`). -/
def isSubstrCharList (p : List Char) : List Char → Bool
  | [] => p.isEmpty
  | c :: cs => p.isPrefixOf (c :: cs) || isSubstrCharList p cs

/-- Accumulator pass for `splitWords`. -/
def splitWordsAux : List Char → List Char → List String
  | acc, [] => if acc.isEmpty then [] else [⟨acc.reverse⟩]
  | acc, c :: cs =>
      if c.isWhitespace then
        if acc.isEmpty then splitWordsAux [] cs
        else ⟨acc.reverse⟩ :: splitWordsAux [] cs
      else splitWordsAux (c :: acc) cs

/-- Python `str.split()` (split on whitespace runs, empties discarded). -/
def splitWords (s : String) : List String := splitWordsAux [] s.data

/-- `UMLSClient._calculate_name_similarity`. -/
def calculateNameSimilarity (term1 term2 : String) : ℚ :=
  if term1 = term2 then 1
  else if isSubstrCharList term1.data term2.data || isSubstrCharList term2.data term1.data then
    9/10
  else
    let words1 := (splitWords term1).dedup
    let words2 := (splitWords term2).dedup
    let overlapWords := words1.filter (fun w => w ∈ words2)
    if overlapWords ≠ [] then
      let total := (words1 ++ words2.filter (fun w => w ∉ words1)).length
      7/10 + ((overlapWords.length : ℚ) / (total : ℚ)) * (2/10)
    else 3/5

/-- Python `round(x, 3)` on the (always non-negative) confidences: rounding
to the nearest thousandth. -/
def round3 (q : ℚ) : ℚ := ((Rat.floor (q * 1000 + 1/2) : ℤ) : ℚ) / 1000

/-- The `{"error": "No API key"}` result of `lookup_term`. -/
def noApiKeyResult : UmlsResult :=
  { entity_type := "UNKNOWN", umls_code := none, confidence := 0,
    metadata := some (.err "No API key") }

/-- The cached no-result marker (`umls_search: no_results`, confidence 0.3). -/
def noResultsMarker : UmlsResult :=
  { entity_type := "UNKNOWN", umls_code := none, confidence := 3/10,
    metadata := some .noResults }

/-- The result dict built on `lookup_term`'s success path (after the search
returned a top-ranked concept `best` and the detail fetch returned the
semantic-type URIs `dets`, `none` standing for the empty `{}`). -/
def lookupSuccessResult (term : String) (best : UmlsConcept) (dets : Option (List String)) :
    UmlsResult :=
  let semanticTypes := extractSemanticTypes (dets.getD [])
  let mapped := mapSemanticTypeToEntity semanticTypes
  let nameSim := calculateNameSimilarity (pyLower term) (pyLower best.name)
  { entity_type := mapped.1, umls_code := some best.ui,
    confidence := round3 (mapped.2 * nameSim),
    metadata := some (.success best.name semanticTypes (round3 nameSim)) }

/-- `UMLSClient.lookup_term` with an explicit clock, API key (empty string =
absent from the environment), cache flag, state and oracle.  Returns the
result, the new state, and the number of network round trips issued. -/
def lookupTerm (o : NetOracle) (now : ℚ) (apiKey : String) (useCache : Bool)
    (st : ClientState) (term : String) : UmlsResult × ClientState × ℕ :=
  match getCachedResult useCache now st.cache term with
  | some r => (r, st, 0)
  | none =>
      if apiKey = "" then (noApiKeyResult, st, 0)
      else
        match searchUmlsConcept o now st term with
        | ([], st1, n1) =>
            (noResultsMarker,
             { st1 with cache := cacheResult useCache now st1.cache term noResultsMarker }, n1)
        | (best :: _, st1, n1) =>
            let dets := getConceptDetails o now st1 best.ui
            let r := lookupSuccessResult term best dets.1
            (r, { dets.2.1 with cache := cacheResult useCache now dets.2.1.cache term r },
             n1 + dets.2.2)

/-! ## Post-processing (`MedicalNERPipeline._postprocess_entities`) -/

/-- The brand → generic table of `_normalize_drug_name`. -/
def brandToGeneric : List (String × String) :=
  [("tylenol", "acetaminophen"), ("advil", "ibuprofen"), ("motrin", "ibuprofen"),
   ("lipitor", "atorvastatin"), ("zocor", "simvastatin"), ("prilosec", "omeprazole"),
   ("nexium", "esomeprazole")]

/-- `MedicalNERPipeline._normalize_drug_name`. -/
def normalizeDrugName (drugName : String) : String :=
  (brandToGeneric.lookup (pyLower drugName)).getD drugName

/-- `abs(dosage_entity.start_pos - med.end_pos)`. -/
def linkDistance (dosage med : MedicalEntity) : ℕ :=
  (dosage.start_pos - med.end_pos).natAbs

/-- `dist < min_distance` where `min_distance` starts at `float('inf')`. -/
def ltMinDist (dist : ℕ) : Option ℕ → Bool
  | none => true
  | some v => dist < v

/-- The accumulator step of `_find_nearest_medication`'s loop:
`if distance < min_distance and distance < 50`. -/
def nearestStep (dosage : MedicalEntity) (acc : Option MedicalEntity × Option ℕ)
    (med : MedicalEntity) : Option MedicalEntity × Option ℕ :=
  let dist := linkDistance dosage med
  if ltMinDist dist acc.2 ∧ dist < 50 then (some med, some dist) else acc

/-- `MedicalNERPipeline._find_nearest_medication`. -/
def findNearestMedication (dosage : MedicalEntity) (allEntities : List MedicalEntity) :
    Option MedicalEntity :=
  let medications := allEntities.filter (fun e => e.type = EntityType.MEDICATION)
  if medications = [] then none
  else (medications.foldl (nearestStep dosage) (none, none)).1

/-- `original_text[context_start:context_end]` with the already-clamped
bounds. -/
def strSlice (s : String) (a b : ℤ) : String :=
  ⟨(s.data.take b.toNat).drop a.toNat⟩

/-- One iteration of `_postprocess_entities`'s loop.  The loop mutates each
entity in place, but the fields it reads from other entities (`type`,
`end_pos`, `text`) are never written, so the in-place mutation is equivalent
to a map over the original list. -/
def postprocessOne (allEntities : List MedicalEntity) (originalText : String)
    (e : MedicalEntity) : MedicalEntity :=
  let e1 := if e.type = EntityType.MEDICATION then
      { e with normalized_text := some (normalizeDrugName e.text) }
    else e
  let e2 := if e.type = EntityType.DOSAGE then
      match findNearestMedication e allEntities with
      | some med => { e1 with metadata := some { linked_medication := some med.text } }
      | none => e1
    else e1
  let contextStart := max 0 (e.start_pos - 20)
  let contextEnd := min (originalText.length : ℤ) (e.end_pos + 20)
  { e2 with metadata := some { e2.metadata.getD {} with
      context := some (strSlice originalText contextStart contextEnd) } }

/-- `MedicalNERPipeline._postprocess_entities`. -/
def postprocessEntities (entities : List MedicalEntity) (originalText : String) :
    List MedicalEntity :=
  entities.map (postprocessOne entities originalText)

/-! ## Text normalization (`MedicalNERPipeline._preprocess_text`)

The three `re.sub` passes are embedded directly: whitespace-run collapse,
digit/letter splitting, and case-insensitive whole-word (`\b`-delimited)
abbreviation expansion.  All inputs of interest are ASCII, where Lean's
character predicates agree with `re`'s. -/

/-- `re.sub(r'\s+', ' ', text)`: replace each maximal whitespace run by a
single space.  The flag records whether the previous character was
whitespace (i.e. whether we are inside a run already emitted as one space). -/
def collapseWsAux : Bool → List Char → List Char
  | _, [] => []
  | prevWs, c :: cs =>
      if c.isWhitespace then
        if prevWs then collapseWsAux true cs
        else ' ' :: collapseWsAux true cs
      else c :: collapseWsAux false cs

def collapseWhitespace (s : List Char) : List Char := collapseWsAux false s

/-- `re.sub(r'(\d+)([a-zA-Z]+)', r'\1 \2', text)`, which is exactly the
insertion of one space at every digit→letter boundary. -/
def splitDigitLetter : List Char → List Char
  | [] => []
  | [c] => [c]
  | c1 :: c2 :: cs =>
      if c1.isDigit && c2.isAlpha then c1 :: ' ' :: splitDigitLetter (c2 :: cs)
      else c1 :: splitDigitLetter (c2 :: cs)

/-- `re`'s `\w` over ASCII: letters, digits, underscore. -/
def isWordChar (c : Char) : Bool := c.isAlphanum || c = '_'

/-- Word-ness of the character adjacent to a position; the edge of the string
counts as non-word. -/
def isWordOpt : Option Char → Bool
  | none => false
  | some c => isWordChar c

/-- Whether the (lower-case) literal pattern matches case-insensitively at the
head of `s`, with a `\b` before and after it: the word-ness of the adjacent
characters must differ across each edge. -/
def boundaryMatchesAt (pat : List Char) (prev : Option Char) (s : List Char) : Bool :=
  match pat with
  | [] => false
  | p0 :: _ =>
      ((s.take pat.length).map Char.toLower = pat : Bool)
        && (isWordOpt prev != isWordChar p0)
        && (isWordChar (pat.getLastD p0) != isWordOpt s[pat.length]?)

/-- `re.sub(r'\b' + abbr + r'\b', full, text, flags=re.IGNORECASE)`: replace
every non-overlapping match, scanning left to right, never rescanning the
replacement.  The scan consumes at least one character per step, so the
initial fuel `s.length` (see `wordBoundaryReplace`) is never exhausted. -/
def wordBoundaryReplaceAux (pat repl : List Char) : ℕ → Option Char → List Char → List Char
  | 0, _, s => s
  | _, _, [] => []
  | fuel + 1, prev, c :: cs =>
      if boundaryMatchesAt pat prev (c :: cs) then
        repl ++ wordBoundaryReplaceAux pat repl fuel (((c :: cs).take pat.length).getLastD c)
          ((c :: cs).drop pat.length)
      else c :: wordBoundaryReplaceAux pat repl fuel (some c) cs

def wordBoundaryReplace (pat repl : List Char) (prev : Option Char) (s : List Char) :
    List Char :=
  wordBoundaryReplaceAux pat repl s.length prev s

/-- The abbreviation table of `_preprocess_text`, in dict insertion order (the
order the `for abbr, full in abbreviations.items()` loop applies them). -/
def abbreviationTable : List (String × String) :=
  [("pt", "patient"), ("hx", "history"), ("dx", "diagnosis"), ("tx", "treatment"),
   ("rx", "prescription"), ("sx", "symptoms"), ("c/o", "complains of"), ("w/", "with"),
   ("w/o", "without"), ("yo", "year old"), ("y/o", "year old")]

/-- The abbreviation-expansion loop. -/
def expandAbbreviations (s : List Char) : List Char :=
  abbreviationTable.foldl
    (fun acc ab => wordBoundaryReplace ab.1.data ab.2.data none acc) s

/-- `MedicalNERPipeline._preprocess_text`: the three passes in source order. -/
def preprocessText (text : String) : String :=
  ⟨expandAbbreviations (splitDigitLetter (collapseWhitespace text.data))⟩

/-! ## Regex-fallback candidate generation, keyword patterns

`_extract_entity_candidates` appends, after the (here failing/absent) BioBERT
tagger output, the matches of six fixed regex patterns against the
*pre-processed* text.  The keyword-alternation shape
`\b(kw1|kw2|...)\b` of the disease/symptom/drug-name patterns is embedded
directly: `re.finditer` scans left to right, tries the alternatives in order
at each position, and continues after each non-overlapping match. -/

/-- Collect `(matched text, start, end)` for a `\b(kw1|...|kwn)\b` pattern
(keywords given lower-case, matching case-insensitive), offset `i` being the
position of the head of `s` in the scanned text.  As in
`wordBoundaryReplaceAux`, the fuel `s.length` is never exhausted. -/
def keywordMatchesAux (kws : List (List Char)) :
    ℕ → Option Char → ℕ → List Char → List (String × ℕ × ℕ)
  | 0, _, _, _ => []
  | _, _, _, [] => []
  | fuel + 1, prev, i, c :: cs =>
      match kws.find? (fun k => boundaryMatchesAt k prev (c :: cs)) with
      | some k =>
          (⟨(c :: cs).take k.length⟩, i, i + k.length) ::
            keywordMatchesAux kws fuel (((c :: cs).take k.length).getLastD c) (i + k.length)
              ((c :: cs).drop k.length)
      | none => keywordMatchesAux kws fuel (some c) (i + 1) cs

def keywordMatches (kws : List (List Char)) (prev : Option Char) (i : ℕ)
    (s : List Char) : List (String × ℕ × ℕ) :=
  keywordMatchesAux kws s.length prev i s

/-- The keyword list of the symptom fallback pattern
`(r'\b(fever|headache|pain|stiffness|nausea)\b', 0.85)` of
`_extract_entity_candidates`. -/
def symptomFallbackKeywords : List String :=
  ["fever", "headache", "pain", "stiffness", "nausea"]

/-- The candidates contributed by the symptom fallback pattern: matches of the
keyword pattern against the pre-processed text, with base detection score
0.85, spans measured in the pre-processed text's coordinates. -/
def symptomFallbackCands (text : String) : List Candidate :=
  (keywordMatches (symptomFallbackKeywords.map String.data) none 0 text.data).map
    (fun m => { text := m.1, start := (m.2.1 : ℤ), stop := (m.2.2 : ℤ), score := 17/20 })

/-! ## Result grouping (`MedicalNERPipeline.process_document`, entity loop) -/

/-- The value of `medications_with_dosage[med_key]`. -/
structure MedRecord where
  name : String
  normalized_name : Option String
  confidence : ℚ
  posStart : ℤ
  posStop : ℤ
  dosage : Option String
  umls_code : Option String
deriving DecidableEq, Repr

/-- `medications_with_dosage[med_key] = {...}`: Python dict assignment keeps
the insertion position of an existing key and replaces its value. -/
def dictInsert (k : String) (v : MedRecord) :
    List (String × MedRecord) → List (String × MedRecord)
  | [] => [(k, v)]
  | (k', v') :: rest => if k' = k then (k, v) :: rest else (k', v') :: dictInsert k v rest

/-- `medications_with_dosage[linked_med]["dosage"] = entity.text`. -/
def dictSetDosage (k : String) (d : String) :
    List (String × MedRecord) → List (String × MedRecord)
  | [] => []
  | (k', v') :: rest =>
      if k' = k then (k', { v' with dosage := some d }) :: rest
      else (k', v') :: dictSetDosage k d rest

/-- `linked_med in medications_with_dosage`. -/
def dictMem (k : String) (l : List (String × MedRecord)) : Bool :=
  l.any (fun kv => kv.1 = k)

/-- The buckets built by the entity loop of `process_document` (the
per-entity dicts are kept as the entities themselves; `to_dict` is injective
on the fields of interest). -/
structure GroupState where
  diseases : List MedicalEntity
  symptoms : List MedicalEntity
  dosagesFlat : List MedicalEntity
  anatomy : List MedicalEntity
  unclassified : List MedicalEntity
  meds : List (String × MedRecord)
deriving DecidableEq, Repr

def emptyGroupState : GroupState :=
  { diseases := [], symptoms := [], dosagesFlat := [], anatomy := [],
    unclassified := [], meds := [] }

/-- The medication record built from a MEDICATION entity. -/
def mkMedRecord (e : MedicalEntity) : MedRecord :=
  { name := e.text, normalized_name := e.normalized_text, confidence := e.confidence,
    posStart := e.start_pos, posStop := e.end_pos, dosage := none,
    umls_code := e.umls_code }

/-- `entity.metadata.get("linked_medication") if entity.metadata else None`. -/
def linkOf (e : MedicalEntity) : Option String :=
  e.metadata.bind (fun m => m.linked_medication)

/-- One iteration of the `for entity in entities` loop of `process_document`.
A DOSAGE entity with a truthy `linked_medication` already present as a
medication key sets that record's `dosage` field; otherwise it lands in the
flat `dosages` bucket. -/
def processGroupStep (st : GroupState) (e : MedicalEntity) : GroupState :=
  match e.type with
  | EntityType.DISEASE => { st with diseases := st.diseases ++ [e] }
  | EntityType.SYMPTOM => { st with symptoms := st.symptoms ++ [e] }
  | EntityType.MEDICATION => { st with meds := dictInsert e.text (mkMedRecord e) st.meds }
  | EntityType.DOSAGE =>
      match linkOf e with
      | some lm =>
          if lm ≠ "" ∧ dictMem lm st.meds then
            { st with meds := dictSetDosage lm e.text st.meds }
          else { st with dosagesFlat := st.dosagesFlat ++ [e] }
      | none => { st with dosagesFlat := st.dosagesFlat ++ [e] }
  | EntityType.ANATOMY => { st with anatomy := st.anatomy ++ [e] }
  | EntityType.UNKNOWN => { st with unclassified := st.unclassified ++ [e] }

/-- The whole grouping loop over the (already gate-filtered) entities. -/
def groupEntities (entities : List MedicalEntity) : GroupState :=
  entities.foldl processGroupStep emptyGroupState

/-! # Theorems -/

/-- The fused classification confidence is either the rule classifier's or the
knowledge-base client's. -/
theorem fuseClassification_conf_cases (rule : String → Option EntityType × ℚ)
    (enableUmls : Bool) (umls : String → UmlsOutcome) (t : String) :
    (fuseClassification rule enableUmls umls t).2.1 = (rule t).2 ∨
      (fuseClassification rule enableUmls umls t).2.1 = (umls t).confidence := by
  unfold fuseClassification
  by_cases h1 : (rule t).1 = none ∨ (rule t).2 < 4/5
  · by_cases h2 : enableUmls
    · by_cases h3 : (umls t).confidence > (rule t).2
      · right; simp [h1, h2, h3]
      · left; simp [h1, h2, h3]
    · left; simp [h1, h2]
  · left; simp [h1]

/-- C1: every entity the fusion step emits carries confidence equal to the
classification confidence times the candidate's detection score, and that
product lies in [0, 1] when both factors do. -/
theorem fused_confidence_product (rule : String → Option EntityType × ℚ)
    (enableUmls : Bool) (umls : String → UmlsOutcome) (cands : List Candidate)
    (hscore : ∀ c ∈ cands, 0 ≤ c.score ∧ c.score ≤ 1)
    (hrule : ∀ s, 0 ≤ (rule s).2 ∧ (rule s).2 ≤ 1)
    (humls : ∀ s, 0 ≤ (umls s).confidence ∧ (umls s).confidence ≤ 1) :
    ∀ e ∈ classifyEntities rule enableUmls umls cands,
      ∃ c ∈ cands, classifyOne rule enableUmls umls c = some e ∧
        e.confidence = (fuseClassification rule enableUmls umls c.text).2.1 * c.score ∧
        0 ≤ e.confidence ∧ e.confidence ≤ 1 := by
  intro e he
  simp only [classifyEntities, List.mem_filterMap] at he
  obtain ⟨c, hc, hcls⟩ := he
  refine ⟨c, hc, hcls, ?_⟩
  have hconf : 0 ≤ (fuseClassification rule enableUmls umls c.text).2.1 ∧
      (fuseClassification rule enableUmls umls c.text).2.1 ≤ 1 := by
    rcases fuseClassification_conf_cases rule enableUmls umls c.text with h | h <;> rw [h]
    · exact hrule c.text
    · exact humls c.text
  have hec : e.confidence = (fuseClassification rule enableUmls umls c.text).2.1 * c.score := by
    unfold classifyOne at hcls
    rcases hfe : fuseClassification rule enableUmls umls c.text with ⟨ty, conf, code⟩
    rw [hfe] at hcls
    cases ty with
    | none => simp at hcls
    | some ty' =>
        simp only [Option.some.injEq] at hcls
        subst hcls
        rfl
  refine ⟨hec, ?_, ?_⟩
  · rw [hec]; exact mul_nonneg hconf.1 (hscore c hc).1
  · rw [hec]
    exact mul_le_one₀ hconf.2 (hscore c hc).1 (hscore c hc).2

/-- Witness for C1 at a concrete candidate list, rule table and lookup. -/
theorem fused_confidence_product_witness :
    ∃ c ∈ [({ text := "x", start := 0, stop := 1, score := 9/10 } : Candidate)],
      classifyOne (fun _ => (none, 0)) true
          (fun _ => { entity_type := .UNKNOWN, umls_code := none, confidence := 1/2 }) c =
        some { text := "x", type := .UNKNOWN, start_pos := 0, end_pos := 1,
               confidence := 9/20, umls_code := none } ∧
      ({ text := "x", type := .UNKNOWN, start_pos := 0, end_pos := 1,
         confidence := 9/20, umls_code := none } : MedicalEntity).confidence =
        (fuseClassification (fun _ => (none, 0)) true
          (fun _ => { entity_type := .UNKNOWN, umls_code := none, confidence := 1/2 }) c.text).2.1
          * c.score ∧
      0 ≤ ({ text := "x", type := .UNKNOWN, start_pos := 0, end_pos := 1,
             confidence := 9/20, umls_code := none } : MedicalEntity).confidence ∧
      ({ text := "x", type := .UNKNOWN, start_pos := 0, end_pos := 1,
         confidence := 9/20, umls_code := none } : MedicalEntity).confidence ≤ 1 :=
  fused_confidence_product (fun _ => (none, 0)) true
    (fun _ => { entity_type := .UNKNOWN, umls_code := none, confidence := 1/2 })
    [{ text := "x", start := 0, stop := 1, score := 9/10 }]
    (by intro c hc; simp at hc; rw [hc]; norm_num)
    (by intro s; norm_num)
    (by intro s; norm_num)
    _ (by
      have hone : classifyOne (fun _ => (none, 0)) true
          (fun _ => { entity_type := .UNKNOWN, umls_code := none, confidence := 1/2 })
          { text := "x", start := 0, stop := 1, score := 9/10 } =
          some { text := "x", type := .UNKNOWN, start_pos := 0, end_pos := 1,
                 confidence := 9/20, umls_code := none } := by
        simp [classifyOne, fuseClassification, MedicalEntity.mk.injEq]
        norm_num
      simp only [classifyEntities, List.filterMap_cons, List.filterMap_nil]
      rw [hone]
      exact List.mem_singleton_self _)

/-- The group scan returns `(none, 0)` exactly when no pattern of any group
matches. -/
theorem classifyGroups_eq_none_iff (s f : String → String → Bool) (t : String)
    (gs : List (EntityType × List String)) :
    classifyGroups s f t gs = (none, 0) ↔ ∀ g ∈ gs, ∀ p ∈ g.2, ¬ s p t := by
  induction gs with
  | nil => simp [classifyGroups]
  | cons g rest ih =>
      obtain ⟨ty, pats⟩ := g
      rcases hfind : pats.find? (fun p => s p t) with _ | p
      · have hnone : ∀ p ∈ pats, ¬ s p t := by
          intro p hp
          have := List.find?_eq_none.mp hfind p hp
          simpa using this
        simp only [classifyGroups, hfind]
        rw [ih]
        constructor
        · intro h
          intro g' hg'
          rcases List.mem_cons.mp hg' with hg' | hg'
          · subst hg'; intro p hp; exact hnone p hp
          · exact h g' hg'
        · intro h g' hg'
          exact h g' (List.mem_cons_of_mem _ hg')
      · have hs : s p t = true := by simpa using List.find?_some hfind
        have hmem : p ∈ pats := List.mem_of_find?_eq_some hfind
        simp only [classifyGroups, hfind]
        constructor
        · intro h; cases h
        · intro h
          exact absurd hs (by simpa using h (ty, pats) (List.mem_cons_self _ _) p hmem)

/-- If every pattern of every earlier group fails, the scan lands on the first
matching pattern of the next group and returns its type with the
fullmatch-dependent confidence. -/
theorem classifyGroups_first_group (s f : String → String → Bool) (t : String)
    (pre : List (EntityType × List String)) (g : EntityType × List String)
    (post : List (EntityType × List String))
    (hpre : ∀ g' ∈ pre, ∀ p ∈ g'.2, ¬ s p t)
    (p : String) (hfind : g.2.find? (fun q => s q t) = some p) :
    classifyGroups s f t (pre ++ g :: post) =
      (some g.1, if f p t then 19/20 else 17/20) := by
  induction pre with
  | nil =>
      obtain ⟨ty, pats⟩ := g
      simp only [List.nil_append, classifyGroups, hfind]
  | cons g' pre' ih =>
      obtain ⟨ty', pats'⟩ := g'
      have hnone : pats'.find? (fun q => s q t) = none := by
        rw [List.find?_eq_none]
        intro q hq
        have := hpre (ty', pats') (List.mem_cons_self _ _) q hq
        simpa using this
      simp only [List.cons_append, classifyGroups, hnone]
      exact ih (fun g'' hg'' => hpre g'' (List.mem_cons_of_mem _ hg''))

/-- C3: the rule classifier scans its groups in the fixed source order
MEDICATION, DOSAGE, SYMPTOM, DISEASE, ANATOMY; the first group containing a
matching pattern decides the type, with confidence 0.95 exactly when the
(lower-cased, stripped) candidate fullmatches that group's first matching
pattern and 0.85 otherwise; no match anywhere gives `(None, 0.0)`; and a
string matching any MEDICATION pattern is classified MEDICATION regardless of
which DISEASE (or later-group) patterns also match. -/
theorem rule_classifier_first_match (s f : String → String → Bool) (text : String) :
    (ruleClassify s f text = (none, 0) ↔
      ∀ g ∈ rulePatternGroups, ∀ p ∈ g.2, ¬ s p (pyStrip (pyLower text)))
    ∧ (∀ pre g post, pre ++ g :: post = rulePatternGroups →
        (∀ g' ∈ pre, ∀ p ∈ g'.2, ¬ s p (pyStrip (pyLower text))) →
        ∀ p, g.2.find? (fun q => s q (pyStrip (pyLower text))) = some p →
          ruleClassify s f text =
            (some g.1, if f p (pyStrip (pyLower text)) then 19/20 else 17/20))
    ∧ ((∃ p ∈ medicationRulePats, s p (pyStrip (pyLower text))) →
        (ruleClassify s f text).1 = some EntityType.MEDICATION) := by
  refine ⟨classifyGroups_eq_none_iff s f (pyStrip (pyLower text)) rulePatternGroups, ?_, ?_⟩
  · intro pre g post hsplit hpre p hfind
    unfold ruleClassify
    rw [← hsplit]
    exact classifyGroups_first_group s f (pyStrip (pyLower text)) pre g post hpre p hfind
  · intro hmed
    have hsome : (medicationRulePats.find? (fun q => s q (pyStrip (pyLower text)))).isSome := by
      rw [List.find?_isSome]
      obtain ⟨p, hp, hsp⟩ := hmed
      exact ⟨p, hp, hsp⟩
    obtain ⟨p, hfind⟩ := Option.isSome_iff_exists.mp hsome
    have := classifyGroups_first_group s f (pyStrip (pyLower text)) []
      (EntityType.MEDICATION, medicationRulePats)
      [(EntityType.DOSAGE, dosageRulePats), (EntityType.SYMPTOM, symptomRulePats),
       (EntityType.DISEASE, diseaseRulePats), (EntityType.ANATOMY, anatomyRulePats)]
      (by intro g' hg'; cases hg') p hfind
    unfold ruleClassify
    rw [show rulePatternGroups =
      [] ++ (EntityType.MEDICATION, medicationRulePats) ::
        [(EntityType.DOSAGE, dosageRulePats), (EntityType.SYMPTOM, symptomRulePats),
         (EntityType.DISEASE, diseaseRulePats), (EntityType.ANATOMY, anatomyRulePats)] from rfl]
    rw [this]

/-- Witness for C3: with a matcher under which every pattern (in particular
both MEDICATION and DISEASE patterns) matches, the classifier answers
MEDICATION. -/
theorem rule_classifier_first_match_witness :
    (ruleClassify (fun _ _ => true) (fun _ _ => true) "metformin").1 =
      some EntityType.MEDICATION :=
  (rule_classifier_first_match (fun _ _ => true) (fun _ _ => true) "metformin").2.2
    ⟨medicationRulePats.getLastD "", by
      simp [medicationRulePats, List.getLastD], rfl⟩

/-- Reading a term back right after caching it (within the TTL) returns
exactly the cached result. -/
theorem getCached_after_cache (now1 now2 : ℚ) (c : List CacheRow) (term : String)
    (r : UmlsResult) (h : now2 - now1 < 30 * 24 * 3600) :
    getCachedResult true now2 (cacheResult true now1 c term r) term = some r := by
  unfold getCachedResult cacheResult
  simp only [if_true]
  rw [List.find?_cons_of_pos _ (by simp)]
  simp only [h, if_pos]

/-- C4: a second `lookup_term` for the same term within the TTL — whatever the
network does meanwhile — is a pure cache hit: it issues zero network round
trips, leaves the client state (in particular the cache) untouched, and
returns exactly the first call's result.  Hypotheses: caching is enabled, an
API key is configured, the two calls are less than 30 days apart, and any
pre-existing live entry for the term is still live at the second call. -/
theorem lookupTerm_cache_idempotent (o o2 : NetOracle) (now1 now2 : ℚ) (key : String)
    (st : ClientState) (term : String)
    (hkey : key ≠ "")
    (hgap : now2 - now1 < 30 * 24 * 3600)
    (hlive : ∀ row, st.cache.find? (fun row => row.term = pyStrip (pyLower term)) = some row →
        now1 - row.timestamp < 30 * 24 * 3600 → now2 - row.timestamp < 30 * 24 * 3600) :
    lookupTerm o2 now2 key true (lookupTerm o now1 key true st term).2.1 term =
      ((lookupTerm o now1 key true st term).1,
       (lookupTerm o now1 key true st term).2.1, 0) := by
  rcases hc : getCachedResult true now1 st.cache term with _ | r
  · -- first call misses the cache and (key being present) always caches
    rcases hs : searchUmlsConcept o now1 st term with ⟨res, st1, n1⟩
    cases res with
    | nil =>
        have h1 : lookupTerm o now1 key true st term =
            (noResultsMarker,
             { st1 with cache := cacheResult true now1 st1.cache term noResultsMarker },
             n1) := by
          simp only [lookupTerm, hc, hs, if_neg hkey]
        rw [h1]
        simp only [lookupTerm]
        rw [getCached_after_cache now1 now2 st1.cache term noResultsMarker hgap]
    | cons best rest =>
        rcases hd : getConceptDetails o now1 st1 best.ui with ⟨dets, st2, n2⟩
        have h1 : lookupTerm o now1 key true st term =
            (lookupSuccessResult term best dets,
             { st2 with cache :=
                cacheResult true now1 st2.cache term (lookupSuccessResult term best dets) },
             n1 + n2) := by
          simp only [lookupTerm, hc, hs, hd, if_neg hkey]
        rw [h1]
        simp only [lookupTerm]
        rw [getCached_after_cache now1 now2 st2.cache term
          (lookupSuccessResult term best dets) hgap]
  · -- first call is itself a hit: nothing changes and the entry is still live
    have h1 : lookupTerm o now1 key true st term = (r, st, 0) := by
      simp only [lookupTerm, hc]
    rw [h1]
    rcases hrow : st.cache.find? (fun row => row.term = pyStrip (pyLower term)) with _ | row
    · exfalso
      simp only [getCachedResult, if_true, hrow] at hc
      cases hc
    · simp only [getCachedResult, if_true, hrow] at hc
      by_cases htl : now1 - row.timestamp < 30 * 24 * 3600
      · rw [if_pos htl] at hc
        have htl2 := hlive row hrow htl
        simp only [lookupTerm, getCachedResult, if_true, hrow, if_pos htl2, hc]
      · rw [if_neg htl] at hc
        cases hc

/-- Witness for C4: a concrete fresh state, term and oracle; the second call
returns the first call's (cached) no-results marker with zero round trips. -/
theorem lookupTerm_cache_idempotent_witness :
    lookupTerm
        { authResp := none, ticketResp := none, searchExact := fun _ => none,
          searchApprox := fun _ => none, detailResp := fun _ => none }
        10 "k" true
        (lookupTerm
          { authResp := none, ticketResp := none, searchExact := fun _ => none,
            searchApprox := fun _ => none, detailResp := fun _ => none }
          0 "k" true { tgt_url := none, tgt_expiry := 0, cache := [] } "fever").2.1 "fever" =
      ((lookupTerm
          { authResp := none, ticketResp := none, searchExact := fun _ => none,
            searchApprox := fun _ => none, detailResp := fun _ => none }
          0 "k" true { tgt_url := none, tgt_expiry := 0, cache := [] } "fever").1,
       (lookupTerm
          { authResp := none, ticketResp := none, searchExact := fun _ => none,
            searchApprox := fun _ => none, detailResp := fun _ => none }
          0 "k" true { tgt_url := none, tgt_expiry := 0, cache := [] } "fever").2.1, 0) :=
  lookupTerm_cache_idempotent _ _ 0 10 "k" _ "fever" (by decide) (by norm_num)
    (by intro row hrow; simp at hrow)

/-- An oracle on which authentication, ticket minting and the exact search
all succeed but every concept-detail request fails. -/
def detailFailOracle : NetOracle :=
  { authResp := some "tgt", ticketResp := some "T",
    searchExact := fun _ => some [{ ui := "C0011849", name := "diabetes" }],
    searchApprox := fun _ => some [], detailResp := fun _ => none }

/-- C5 counterexample: on a concept-detail fetch failure (auth, tickets and
search all succeeded), `lookup_term` returns entity type UNKNOWN but with
confidence 0.5 — neither a result of confidence 0.0 nor the cached no-result
marker (whose confidence is 0.3 and whose metadata says `no_results`) — and
with the concept's code attached rather than `None`. -/
theorem lookup_detail_failure_cex :
    detailFailOracle.detailResp "C0011849" = none
    ∧ (lookupTerm detailFailOracle 0 "k" true ⟨none, 0, []⟩ "diabetes").1.entity_type
        = "UNKNOWN"
    ∧ (lookupTerm detailFailOracle 0 "k" true ⟨none, 0, []⟩ "diabetes").1.confidence = 1/2
    ∧ (lookupTerm detailFailOracle 0 "k" true ⟨none, 0, []⟩ "diabetes").1.confidence ≠ 0
    ∧ (lookupTerm detailFailOracle 0 "k" true ⟨none, 0, []⟩ "diabetes").1.umls_code
        = some "C0011849"
    ∧ (lookupTerm detailFailOracle 0 "k" true ⟨none, 0, []⟩ "diabetes").1
        ≠ noResultsMarker := by
  with_unfolding_all decide

/-- With no recognized semantic-type code, the mapping degrades to
`('UNKNOWN', 0.5)`. -/
theorem mapSemanticTypeToEntity_nil : mapSemanticTypeToEntity [] = ("UNKNOWN", 1/2) := by
  with_unfolding_all decide

/-- The service-ticket exchange fails whenever the ticket endpoint fails. -/
theorem getFreshServiceTicket_fails (o : NetOracle) (now : ℚ) (st : ClientState)
    (h : o.ticketResp = none) : (getFreshServiceTicket o now st).1 = none := by
  unfold getFreshServiceTicket
  rcases ht : getTgtUrl o now st with ⟨tgt, st1, n1⟩
  cases tgt <;> simp [h]

/-- C5 (amended): `lookup_term` is total and degrades every failure locally:
a missing API key returns the UNKNOWN/0.0 error result; credential, ticket
and search failures all produce an empty search and hence the cached
no-result marker (UNKNOWN, confidence 0.3); a concept-detail failure returns
entity type UNKNOWN with confidence 0.5 × name-similarity (not 0.0) and the
concept's code. -/
theorem lookupTerm_failure_degradation (o : NetOracle) (now : ℚ) (key : String)
    (st : ClientState) (term : String)
    (hmiss : getCachedResult true now st.cache term = none) :
    (key = "" → lookupTerm o now key true st term = (noApiKeyResult, st, 0))
    ∧ (key ≠ "" → (searchUmlsConcept o now st term).1 = [] →
        (lookupTerm o now key true st term).1 = noResultsMarker)
    ∧ (¬(st.tgt_url.isSome ∧ now < st.tgt_expiry) → o.authResp = none →
        (searchUmlsConcept o now st term).1 = [])
    ∧ (o.ticketResp = none → (searchUmlsConcept o now st term).1 = [])
    ∧ (o.searchExact term = none → (searchUmlsConcept o now st term).1 = [])
    ∧ (key ≠ "" → ∀ best rest, (searchUmlsConcept o now st term).1 = best :: rest →
        (getConceptDetails o now (searchUmlsConcept o now st term).2.1 best.ui).1 = none →
        (lookupTerm o now key true st term).1.entity_type = "UNKNOWN" ∧
          (lookupTerm o now key true st term).1.confidence =
            round3 (1/2 * calculateNameSimilarity (pyLower term) (pyLower best.name))) := by
  refine ⟨?_, ?_, ?_, ?_, ?_, ?_⟩
  · intro hk
    subst hk
    simp [lookupTerm, hmiss]
  · intro hk hempty
    rcases hs : searchUmlsConcept o now st term with ⟨res, st1, n1⟩
    rw [hs] at hempty
    simp only at hempty
    subst hempty
    simp [lookupTerm, hmiss, hs, hk]
  · intro hno hauth
    simp [searchUmlsConcept, getFreshServiceTicket, getTgtUrl, if_neg hno, hauth]
  · intro ht
    have h1 := getFreshServiceTicket_fails o now st ht
    rcases hf : getFreshServiceTicket o now st with ⟨tk, st1, n1⟩
    rw [hf] at h1
    simp only at h1
    subst h1
    simp [searchUmlsConcept, hf]
  · intro hse
    rcases hf : getFreshServiceTicket o now st with ⟨tk, st1, n1⟩
    cases tk with
    | none => simp [searchUmlsConcept, hf]
    | some t => simp [searchUmlsConcept, hf, hse]
  · intro hk best rest hs' hd'
    rcases hs : searchUmlsConcept o now st term with ⟨res, st1, n1⟩
    rw [hs] at hs' hd'
    simp only at hs' hd'
    subst hs'
    rcases hd : getConceptDetails o now st1 best.ui with ⟨dets, st2, n2⟩
    rw [hd] at hd'
    simp only at hd'
    subst hd'
    have hlt : lookupTerm o now key true st term =
        (lookupSuccessResult term best none,
         { st2 with cache :=
            cacheResult true now st2.cache term (lookupSuccessResult term best none) },
         n1 + n2) := by
      simp only [lookupTerm, hmiss, hs, hd, if_neg hk]
    rw [hlt]
    constructor
    · simp [lookupSuccessResult, extractSemanticTypes, mapSemanticTypeToEntity_nil]
    · simp [lookupSuccessResult, extractSemanticTypes, mapSemanticTypeToEntity_nil]

/-- Witness for the amended C5 at a concrete all-failing oracle: the result is
the cached no-result marker. -/
theorem lookupTerm_failure_degradation_witness :
    (lookupTerm
        { authResp := none, ticketResp := none, searchExact := fun _ => none,
          searchApprox := fun _ => none, detailResp := fun _ => none }
        0 "k" true ⟨none, 0, []⟩ "fever").1 = noResultsMarker :=
  (lookupTerm_failure_degradation _ 0 "k" _ "fever" (by with_unfolding_all decide)).2.1
    (by decide) (by with_unfolding_all decide)

/-- Invariant of `_find_nearest_medication`'s accumulator: the tracked
minimum is the distance of the tracked medication and is below 50. -/
def nearestAccInv (d : MedicalEntity) : Option MedicalEntity × Option ℕ → Prop
  | (none, none) => True
  | (some m, some v) => v = linkDistance d m ∧ v < 50
  | _ => False

/-- One loop step preserves the accumulator invariant. -/
theorem nearestStep_inv (d : MedicalEntity) (acc : Option MedicalEntity × Option ℕ)
    (m0 : MedicalEntity) (h : nearestAccInv d acc) :
    nearestAccInv d (nearestStep d acc m0) := by
  unfold nearestStep
  by_cases hc : ltMinDist (linkDistance d m0) acc.2 ∧ linkDistance d m0 < 50
  · rw [if_pos hc]
    exact ⟨rfl, hc.2⟩
  · rw [if_neg hc]
    exact h

/-- A tracked minimum without a tracked medication is impossible. -/
theorem nearestAccInv_no_mix (d : MedicalEntity) (va : ℕ) :
    ¬ nearestAccInv d (none, some va) := by
  simp [nearestAccInv]

/-- Full specification of the `_find_nearest_medication` fold: the invariant
is preserved; any answer comes from the accumulator or the list; the tracked
minimum is a lower bound of all candidate distances and never increases; a
`none` answer means nothing was within 50; something within 50 forces an
answer. -/
theorem nearestFold (d : MedicalEntity) :
    ∀ (ms : List MedicalEntity) (acc : Option MedicalEntity × Option ℕ),
      nearestAccInv d acc →
      nearestAccInv d (ms.foldl (nearestStep d) acc)
      ∧ (∀ m v, ms.foldl (nearestStep d) acc = (some m, some v) →
          acc = (some m, some v) ∨ m ∈ ms)
      ∧ (∀ m v, ms.foldl (nearestStep d) acc = (some m, some v) →
          (∀ m' ∈ ms, v ≤ linkDistance d m') ∧ (∀ v0, acc.2 = some v0 → v ≤ v0))
      ∧ ((ms.foldl (nearestStep d) acc).1 = none →
          acc.1 = none ∧ ∀ m' ∈ ms, ¬ linkDistance d m' < 50)
      ∧ (acc.1 = none → (∃ m ∈ ms, linkDistance d m < 50) →
          (ms.foldl (nearestStep d) acc).1 ≠ none) := by
  intro ms
  induction ms with
  | nil =>
      intro acc hinv
      refine ⟨hinv, ?_, ?_, ?_, ?_⟩
      · intro m v h; exact Or.inl h
      · intro m v h
        have hacc : acc = (some m, some v) := by simpa using h
        refine ⟨by simp, ?_⟩
        intro v0 hv0
        rw [hacc] at hv0
        have : v = v0 := by simpa using hv0
        omega
      · intro h; exact ⟨h, by simp⟩
      · intro _ h
        obtain ⟨m, hm, _⟩ := h
        cases hm
  | cons m0 ms' ih =>
      intro acc hinv
      have hstep := nearestStep_inv d acc m0 hinv
      obtain ⟨ih1, ih2, ih3, ih4, ih5⟩ := ih (nearestStep d acc m0) hstep
      by_cases hc : ltMinDist (linkDistance d m0) acc.2 ∧ linkDistance d m0 < 50
      · have hs : nearestStep d acc m0 = (some m0, some (linkDistance d m0)) := by
          unfold nearestStep; rw [if_pos hc]
        refine ⟨by simpa [List.foldl_cons] using ih1, ?_, ?_, ?_, ?_⟩
        · intro m v h
          rcases ih2 m v (by simpa [List.foldl_cons] using h) with h2 | h2
          · rw [hs] at h2
            simp only [Prod.mk.injEq, Option.some.injEq] at h2
            right
            rw [← h2.1]
            exact List.mem_cons_self _ _
          · exact Or.inr (List.mem_cons_of_mem _ h2)
        · intro m v h
          have h' := ih3 m v (by simpa [List.foldl_cons] using h)
          refine ⟨?_, ?_⟩
          · intro m' hm'
            rcases List.mem_cons.mp hm' with hm' | hm'
            · subst hm'
              exact h'.2 (linkDistance d m') (by rw [hs])
            · exact h'.1 m' hm'
          · intro v0 hv0
            have hv := h'.2 (linkDistance d m0) (by rw [hs])
            rcases hacc : acc.2 with _ | va
            · rw [hacc] at hv0; cases hv0
            · rw [hacc] at hv0
              have hveq : va = v0 := by simpa using hv0
              have hlm : ltMinDist (linkDistance d m0) acc.2 = true := hc.1
              rw [hacc] at hlm
              simp only [ltMinDist, decide_eq_true_eq] at hlm
              omega
        · intro h
          have h4 := ih4 (by simpa [List.foldl_cons] using h)
          rw [hs] at h4
          cases h4.1
        · intro _ _
          intro hnone
          have h4 := ih4 (by simpa [List.foldl_cons] using hnone)
          rw [hs] at h4
          cases h4.1
      · have hs : nearestStep d acc m0 = acc := by
          unfold nearestStep; rw [if_neg hc]
        rw [hs] at ih1 ih2 ih3 ih4 ih5
        refine ⟨by simpa [List.foldl_cons, hs] using ih1, ?_, ?_, ?_, ?_⟩
        · intro m v h
          rcases ih2 m v (by simpa [List.foldl_cons, hs] using h) with h2 | h2
          · exact Or.inl h2
          · exact Or.inr (List.mem_cons_of_mem _ h2)
        · intro m v h
          have h' := ih3 m v (by simpa [List.foldl_cons, hs] using h)
          refine ⟨?_, h'.2⟩
          intro m' hm'
          rcases List.mem_cons.mp hm' with hm' | hm'
          · subst hm'
            -- m0 was skipped: either its distance is ≥ 50, or ≥ the running minimum
            rcases Decidable.not_and_iff_or_not.mp hc with hnm | hn50
            · rcases hacc : acc.2 with _ | va
              · rw [hacc] at hnm
                simp [ltMinDist] at hnm
              · rw [hacc] at hnm
                simp only [ltMinDist, decide_eq_true_eq] at hnm
                have hva : v ≤ va := h'.2 va (by rw [hacc])
                omega
            · -- distance of m0 is ≥ 50 while the final minimum is < 50
              have hfin := ih1
              rw [show ms'.foldl (nearestStep d) acc = (some m, some v) from
                by simpa [List.foldl_cons, hs] using h] at hfin
              have hv50 : v < 50 := hfin.2
              omega
          · exact h'.1 m' hm'
        · intro h
          have h4 := ih4 (by simpa [List.foldl_cons, hs] using h)
          refine ⟨h4.1, ?_⟩
          intro m' hm'
          rcases List.mem_cons.mp hm' with hm' | hm'
          · subst hm'
            intro h50
            -- with acc.1 = none the invariant forces acc.2 = none, so m0 would
            -- have been taken
            rcases hacc2 : acc.2 with _ | va
            · exact hc ⟨by rw [hacc2]; simp [ltMinDist], h50⟩
            · rcases hacc1 : acc.1 with _ | mm
              · have hacceq : acc = (none, some va) := by
                  rw [← hacc1, ← hacc2]
                exact (nearestAccInv_no_mix d va (hacceq ▸ hinv)).elim
              · rw [hacc1] at h4
                cases h4.1
          · exact h4.2 m' hm'
        · intro hacc1 hex
          obtain ⟨m, hm, hm50⟩ := hex
          rcases List.mem_cons.mp hm with hm | hm
          · subst hm
            rcases hacc2 : acc.2 with _ | va
            · exact absurd ⟨by rw [hacc2]; simp [ltMinDist], hm50⟩ hc
            · rcases hacc1' : acc.1 with _ | mm
              · have hacceq : acc = (none, some va) := by
                  rw [← hacc1', ← hacc2]
                exact (nearestAccInv_no_mix d va (hacceq ▸ hinv)).elim
              · rw [hacc1'] at hacc1; cases hacc1
          · have hres := ih5 hacc1 ⟨m, hm, hm50⟩
            intro hnone
            exact hres (by simpa [List.foldl_cons, hs] using hnone)

/-- `_find_nearest_medication` returns a closest medication strictly within
50 characters when one exists, and `None` otherwise. -/
theorem findNearestMedication_spec (d : MedicalEntity) (entities : List MedicalEntity) :
    ((∃ m ∈ entities.filter (fun e => e.type = EntityType.MEDICATION),
        linkDistance d m < 50) →
      ∃ m ∈ entities.filter (fun e => e.type = EntityType.MEDICATION),
        findNearestMedication d entities = some m ∧ linkDistance d m < 50 ∧
          ∀ m' ∈ entities.filter (fun e => e.type = EntityType.MEDICATION),
            linkDistance d m ≤ linkDistance d m')
    ∧ ((∀ m ∈ entities.filter (fun e => e.type = EntityType.MEDICATION),
          ¬ linkDistance d m < 50) →
        findNearestMedication d entities = none) := by
  obtain ⟨f1, f2, f3, f4, f5⟩ :=
    nearestFold d (entities.filter (fun e => e.type = EntityType.MEDICATION))
      (none, none) trivial
  constructor
  · intro hex
    obtain ⟨m1, hm1, hd1⟩ := hex
    have hne : entities.filter (fun e => e.type = EntityType.MEDICATION) ≠ [] :=
      List.ne_nil_of_mem hm1
    have hval : findNearestMedication d entities =
        ((entities.filter (fun e => e.type = EntityType.MEDICATION)).foldl
          (nearestStep d) (none, none)).1 := by
      simp only [findNearestMedication]
      rw [if_neg hne]
    have hsome := f5 rfl ⟨m1, hm1, hd1⟩
    rcases hfold : (entities.filter (fun e => e.type = EntityType.MEDICATION)).foldl
        (nearestStep d) (none, none) with ⟨b1, b2⟩
    rw [hfold] at hsome f1
    rcases b1 with _ | m
    · exact absurd rfl hsome
    · rcases b2 with _ | v
      · exact absurd f1 (by simp [nearestAccInv])
      · obtain ⟨hveq, hv50⟩ := f1
        have hmem : m ∈ entities.filter (fun e => e.type = EntityType.MEDICATION) := by
          rcases f2 m v hfold with hcon | hmem
          · cases hcon
          · exact hmem
        refine ⟨m, hmem, by rw [hval, hfold], by omega, ?_⟩
        intro m' hm'
        have := (f3 m v hfold).1 m' hm'
        omega
  · intro hall
    by_cases hne : entities.filter (fun e => e.type = EntityType.MEDICATION) = []
    · simp only [findNearestMedication]
      rw [if_pos hne]
    · have hval : findNearestMedication d entities =
          ((entities.filter (fun e => e.type = EntityType.MEDICATION)).foldl
            (nearestStep d) (none, none)).1 := by
        simp only [findNearestMedication]
        rw [if_neg hne]
      rw [hval]
      rcases hfold : (entities.filter (fun e => e.type = EntityType.MEDICATION)).foldl
          (nearestStep d) (none, none) with ⟨b1, b2⟩
      rw [hfold] at f1
      rcases b1 with _ | m
      · rw [hfold]
      · exfalso
        rcases b2 with _ | v
        · exact absurd f1 (by simp [nearestAccInv])
        · obtain ⟨hveq, hv50⟩ := f1
          have hmem : m ∈ entities.filter (fun e => e.type = EntityType.MEDICATION) := by
            rcases f2 m v hfold with hcon | hmem
            · cases hcon
            · exact hmem
          exact hall m hmem (by omega)

/-- C6: in post-processing, a DOSAGE entity gets `linked_medication` set to
the text of a MEDICATION entity minimizing `|dosageStart - medicationEnd|`
over the document exactly when that minimum is strictly below 50 characters;
when no medication lies within 50 characters (or none exists), no link is
recorded. -/
theorem dosage_linking (entities : List MedicalEntity) (originalText : String)
    (d : MedicalEntity) (hd : d.type = EntityType.DOSAGE) (hmeta : d.metadata = none) :
    ((∃ m ∈ entities.filter (fun e => e.type = EntityType.MEDICATION),
        linkDistance d m < 50) →
      ∃ m ∈ entities.filter (fun e => e.type = EntityType.MEDICATION),
        (postprocessOne entities originalText d).metadata.bind
            (fun md => md.linked_medication) = some m.text
        ∧ linkDistance d m < 50
        ∧ ∀ m' ∈ entities.filter (fun e => e.type = EntityType.MEDICATION),
            linkDistance d m ≤ linkDistance d m')
    ∧ ((∀ m ∈ entities.filter (fun e => e.type = EntityType.MEDICATION),
          ¬ linkDistance d m < 50) →
        (postprocessOne entities originalText d).metadata.bind
            (fun md => md.linked_medication) = none)
    ∧ postprocessEntities entities originalText =
        entities.map (postprocessOne entities originalText) := by
  have hnotmed : ¬ d.type = EntityType.MEDICATION := by
    rw [hd]; intro hcon; cases hcon
  obtain ⟨hpos, hneg⟩ := findNearestMedication_spec d entities
  refine ⟨?_, ?_, rfl⟩
  · intro hex
    obtain ⟨m, hmem, hfind, h50, hmin⟩ := hpos hex
    refine ⟨m, hmem, ?_, h50, hmin⟩
    simp [postprocessOne, hd, hfind]
  · intro hall
    have hfind := hneg hall
    simp [postprocessOne, hd, hfind, hmeta]

/-- The two-entity document of the dosage-linking scenario: "lisinopril"
ending at offset 50 and "10 mg" starting at offset 52 (distance 2). -/
def linkMedEnt : MedicalEntity :=
  { text := "lisinopril", type := .MEDICATION, start_pos := 40, end_pos := 50,
    confidence := 1 }

def linkDoseEnt : MedicalEntity :=
  { text := "10 mg", type := .DOSAGE, start_pos := 52, end_pos := 57, confidence := 1 }

/-- Witness for C6: a dosage starting 2 characters after "lisinopril"
(medication ending at 50, dosage starting at 52) is linked to it. -/
theorem dosage_linking_witness :
    ∃ m ∈ [linkMedEnt, linkDoseEnt].filter (fun e => e.type = EntityType.MEDICATION),
      (postprocessOne [linkMedEnt, linkDoseEnt] "doc" linkDoseEnt).metadata.bind
          (fun md => md.linked_medication) = some m.text
      ∧ linkDistance linkDoseEnt m < 50
      ∧ ∀ m' ∈ [linkMedEnt, linkDoseEnt].filter
            (fun e => e.type = EntityType.MEDICATION),
          linkDistance linkDoseEnt m ≤ linkDistance linkDoseEnt m' :=
  (dosage_linking [linkMedEnt, linkDoseEnt] "doc" linkDoseEnt rfl rfl).1 (by decide)

/-- No two adjacent whitespace characters (so whitespace collapse has nothing
to shrink). -/
def noTwoAdjacentWs : List Char → Bool
  | a :: b :: rest => (!(a.isWhitespace && b.isWhitespace)) && noTwoAdjacentWs (b :: rest)
  | _ => true

/-- Without adjacent whitespace, collapsing runs preserves the length
(each single whitespace character becomes one space). -/
theorem collapseWsAux_length : ∀ (s : List Char) (b : Bool),
    noTwoAdjacentWs s = true →
    (b = true → ∀ c, s.head? = some c → ¬ c.isWhitespace = true) →
    (collapseWsAux b s).length = s.length := by
  intro s
  induction s with
  | nil => intro b _ _; rfl
  | cons c cs ih =>
      intro b hnd hhead
      by_cases hws : c.isWhitespace = true
      · have hb : b = false := by
          cases b with
          | false => rfl
          | true => exact absurd hws (hhead rfl c rfl)
        subst hb
        have hcs : noTwoAdjacentWs cs = true := by
          cases cs with
          | nil => rfl
          | cons c2 cs' =>
              have := hnd
              simp only [noTwoAdjacentWs, Bool.and_eq_true] at this
              exact this.2
        have hnext : ∀ c2, cs.head? = some c2 → ¬ c2.isWhitespace = true := by
          intro c2 hc2
          cases cs with
          | nil => cases hc2
          | cons c2' cs' =>
              simp only [List.head?_cons, Option.some.injEq] at hc2
              subst hc2
              have := hnd
              simp only [noTwoAdjacentWs, Bool.and_eq_true, Bool.not_eq_true',
                Bool.and_eq_false_iff] at this
              rcases this.1 with h | h
              · rw [hws] at h; cases h
              · simp [h]
        simp only [collapseWsAux, hws, if_true, if_false, Bool.false_eq_true]
        simp only [List.length_cons]
        rw [ih true hcs (fun _ => hnext)]
      · have hcs : noTwoAdjacentWs cs = true := by
          cases cs with
          | nil => rfl
          | cons c2 cs' =>
              have := hnd
              simp only [noTwoAdjacentWs, Bool.and_eq_true] at this
              exact this.2
        simp only [collapseWsAux]
        rw [if_neg hws]
        simp only [List.length_cons]
        rw [ih false hcs (by intro hcon; cases hcon)]

/-- Digit/letter splitting only inserts characters. -/
theorem splitDigitLetter_length : ∀ s : List Char,
    s.length ≤ (splitDigitLetter s).length := by
  intro s
  induction s with
  | nil => simp [splitDigitLetter]
  | cons c1 cs ih =>
      cases cs with
      | nil => simp [splitDigitLetter]
      | cons c2 cs' =>
          by_cases hb : (c1.isDigit && c2.isAlpha) = true
          · simp only [splitDigitLetter, hb, if_true, List.length_cons]
            simp only [List.length_cons] at ih
            omega
          · simp only [splitDigitLetter, hb, if_false, List.length_cons,
              Bool.false_eq_true]
            simp only [List.length_cons] at ih
            omega

/-- A boundary match never extends past the string. -/
theorem boundaryMatchesAt_le (pat : List Char) (prev : Option Char) (s : List Char)
    (h : boundaryMatchesAt pat prev s = true) : pat.length ≤ s.length := by
  cases pat with
  | nil => simp [boundaryMatchesAt] at h
  | cons p0 pr =>
      simp only [boundaryMatchesAt, Bool.and_eq_true, decide_eq_true_eq] at h
      have hlen := congrArg List.length h.1.1
      simp only [List.length_map, List.length_take] at hlen
      omega

/-- Replacing matches by a replacement at least as long never shrinks the
text. -/
theorem wordBoundaryReplaceAux_length (pat repl : List Char)
    (hpr : pat.length ≤ repl.length) :
    ∀ (fuel : ℕ) (prev : Option Char) (s : List Char),
      s.length ≤ (wordBoundaryReplaceAux pat repl fuel prev s).length := by
  intro fuel
  induction fuel with
  | zero => intro prev s; simp [wordBoundaryReplaceAux]
  | succ fuel ih =>
      intro prev s
      cases s with
      | nil => simp [wordBoundaryReplaceAux]
      | cons c cs =>
          by_cases hm : boundaryMatchesAt pat prev (c :: cs) = true
          · have hle := boundaryMatchesAt_le pat prev (c :: cs) hm
            simp only [wordBoundaryReplaceAux, hm, if_true, List.length_append]
            have h1 := ih (((c :: cs).take pat.length).getLastD c) ((c :: cs).drop pat.length)
            have h2 : ((c :: cs).drop pat.length).length = (c :: cs).length - pat.length :=
              List.length_drop _ _
            omega
          · simp only [wordBoundaryReplaceAux, hm, if_false, List.length_cons,
              Bool.false_eq_true]
            have := ih (some c) cs
            omega

/-- Every abbreviation expands to a replacement at least as long. -/
theorem abbreviationTable_grows :
    ∀ p ∈ abbreviationTable, p.1.data.length ≤ p.2.data.length := by decide

/-- The abbreviation-expansion loop never shrinks the text. -/
theorem expandAbbreviations_length (s : List Char) :
    s.length ≤ (expandAbbreviations s).length := by
  have hfold : ∀ (l : List (String × String)),
      (∀ p ∈ l, p.1.data.length ≤ p.2.data.length) →
      ∀ t : List Char,
        t.length ≤ (l.foldl
          (fun acc ab => wordBoundaryReplace ab.1.data ab.2.data none acc) t).length := by
    intro l
    induction l with
    | nil => intro _ t; simp
    | cons p l' ih =>
        intro hgrow t
        simp only [List.foldl_cons]
        refine le_trans ?_ (ih (fun q hq => hgrow q (List.mem_cons_of_mem _ hq)) _)
        exact wordBoundaryReplaceAux_length p.1.data p.2.data
          (hgrow p (List.mem_cons_self _ _)) _ none t
  exact hfold abbreviationTable abbreviationTable_grows s

/-- C8 counterexample: whitespace collapse shrinks `"a  b"` (two spaces) from
4 to 3 characters, so the normalizer's output can be shorter than its
input. -/
theorem preprocess_shortens_cex :
    (preprocessText "a  b").length < ("a  b" : String).length := by decide

/-- C8 (amended): the normalizer's output is at least as long as its input
whenever the input contains no two adjacent whitespace characters; in general
whitespace-run collapse can shorten it (see the counterexample). -/
theorem preprocess_length_amended (text : String)
    (h : noTwoAdjacentWs text.data = true) :
    text.length ≤ (preprocessText text).length := by
  have hmk : ∀ l : List Char, (String.mk l).length = l.length := fun _ => rfl
  have hstr : text.length = text.data.length := rfl
  rw [hstr]
  simp only [preprocessText, hmk, collapseWhitespace]
  refine le_trans ?_ (expandAbbreviations_length _)
  refine le_trans ?_ (splitDigitLetter_length _)
  rw [collapseWsAux_length text.data false h (by intro hcon; cases hcon)]

/-- Witness for the amended C8 on a concrete narrative with single spacing. -/
theorem preprocess_length_amended_witness :
    ("pt c/o chest pain" : String).length ≤
      (preprocessText "pt c/o chest pain").length :=
  preprocess_length_amended "pt c/o chest pain" (by decide)

/-- The confidence gate never changes an entity's span. -/
theorem gateOne_preserves_pos (cfg : NERConfig) (e1 e : MedicalEntity)
    (h : gateOne cfg e1 = some e) :
    e.start_pos = e1.start_pos ∧ e.end_pos = e1.end_pos := by
  unfold gateOne at h
  split_ifs at h <;> · injection h with h'; subst h'; exact ⟨rfl, rfl⟩

/-- Post-processing never changes an entity's span. -/
theorem postprocessOne_preserves_pos (es : List MedicalEntity) (t : String)
    (e0 : MedicalEntity) :
    (postprocessOne es t e0).start_pos = e0.start_pos ∧
      (postprocessOne es t e0).end_pos = e0.end_pos := by
  unfold postprocessOne
  rcases hf : findNearestMedication e0 es with _ | m <;>
    by_cases h1 : e0.type = EntityType.MEDICATION <;>
    by_cases h2 : e0.type = EntityType.DOSAGE <;>
    simp [hf, h1, h2]

/-- C7 exhibit: the pipeline reports spans in the *normalized* text's
coordinates.  For the input `"c/o pain"` (8 characters) the normalizer yields
`"complains of pain"` (17 characters), the symptom fallback pattern produces
the candidate `"pain"` at span [13, 17) of the normalized text, and neither
classification (`_classify_entities`), post-processing, nor the confidence
gate ever change a span — so the final entity carries `end = 17 > 8 = len(t)`,
violating `0 ≤ start < end ≤ len(t)` against the original text. -/
theorem spans_index_normalized_text :
    preprocessText "c/o pain" = "complains of pain"
    ∧ ("c/o pain" : String).length = 8
    ∧ symptomFallbackCands (preprocessText "c/o pain") =
        [{ text := "pain", start := 13, stop := 17, score := 17/20 }]
    ∧ (∀ rule enableUmls umls (c : Candidate) e,
        classifyOne rule enableUmls umls c = some e →
          e.start_pos = c.start ∧ e.end_pos = c.stop)
    ∧ (∀ cfg es t e, e ∈ filterByConfidence cfg (postprocessEntities es t) →
        ∃ e0 ∈ es, e.start_pos = e0.start_pos ∧ e.end_pos = e0.end_pos) := by
  refine ⟨by decide, by decide, by with_unfolding_all decide, ?_, ?_⟩
  · intro rule enableUmls umls c e h
    unfold classifyOne at h
    rcases hfe : fuseClassification rule enableUmls umls c.text with ⟨ty, conf, code⟩
    rw [hfe] at h
    cases ty with
    | none => cases h
    | some ty' =>
        injection h with h'
        subst h'
        exact ⟨rfl, rfl⟩
  · intro cfg es t e he
    simp only [filterByConfidence, postprocessEntities, List.mem_filterMap,
      List.mem_map] at he
    obtain ⟨e1, ⟨e0, he0, hpost⟩, hgate⟩ := he
    refine ⟨e0, he0, ?_⟩
    obtain ⟨hg1, hg2⟩ := gateOne_preserves_pos cfg e1 e hgate
    obtain ⟨hp1, hp2⟩ := postprocessOne_preserves_pos es t e0
    rw [hpost] at hp1 hp2
    exact ⟨by rw [hg1, hp1], by rw [hg2, hp2]⟩

/-- Witness for the C7 exhibit: the "pain" candidate of the normalized text,
classified by the symptom rule, keeps its end offset 17 although the original
input has only 8 characters. -/
theorem spans_index_normalized_text_witness :
    (classifyOne (fun _ => (some EntityType.SYMPTOM, (19:ℚ)/20)) true
        (fun _ => { entity_type := .UNKNOWN, umls_code := none, confidence := 0 })
        { text := "pain", start := 13, stop := 17, score := 17/20 }).map
        (fun e => e.end_pos) = some 17
    ∧ ("c/o pain" : String).length = 8 := by
  constructor
  · rcases hc : classifyOne (fun _ => (some EntityType.SYMPTOM, (19:ℚ)/20)) true
        (fun _ => { entity_type := .UNKNOWN, umls_code := none, confidence := 0 })
        { text := "pain", start := 13, stop := 17, score := 17/20 } with _ | e
    · exact absurd hc (by with_unfolding_all decide)
    · obtain ⟨h1, h2⟩ := spans_index_normalized_text.2.2.2.1 _ _ _ _ e hc
      simp [h2]
  · exact spans_index_normalized_text.2.1

/-- Access to a medication record by key (the dict read
`medications_with_dosage[linked_med]`). -/
def dictLookup (k : String) : List (String × MedRecord) → Option MedRecord
  | [] => none
  | (k', v) :: rest => if k' = k then some v else dictLookup k rest

/-- A key is present after a dict assignment exactly when it is the assigned
key or was present before. -/
theorem dictMem_dictInsert (k k' : String) (v : MedRecord) :
    ∀ l, dictMem k (dictInsert k' v l) = true ↔ k' = k ∨ dictMem k l = true := by
  intro l
  induction l with
  | nil => simp [dictInsert, dictMem]
  | cons kv rest ih =>
      obtain ⟨k0, v0⟩ := kv
      by_cases h0 : k0 = k'
      · subst h0
        rw [show dictInsert k0 v ((k0, v0) :: rest) = (k0, v) :: rest from by
          simp [dictInsert]]
        simp only [dictMem, List.any_cons, Bool.or_eq_true, decide_eq_true_eq]
        tauto
      · simp only [dictInsert, if_neg h0]
        simp only [dictMem, List.any_cons, Bool.or_eq_true, decide_eq_true_eq] at ih ⊢
        tauto

/-- Setting a dosage never changes the key set. -/
theorem dictMem_dictSetDosage (k k' dt : String) :
    ∀ l, dictMem k (dictSetDosage k' dt l) = dictMem k l := by
  intro l
  induction l with
  | nil => rfl
  | cons kv rest ih =>
      obtain ⟨k0, v0⟩ := kv
      by_cases h0 : k0 = k'
      · simp [dictSetDosage, if_pos h0, dictMem]
      · simp only [dictMem] at ih
        simp [dictSetDosage, if_neg h0, dictMem, ih]

/-- Assigning another key leaves a lookup unchanged. -/
theorem dictLookup_dictInsert_ne (k k' : String) (v : MedRecord) (hne : k' ≠ k) :
    ∀ l, dictLookup k (dictInsert k' v l) = dictLookup k l := by
  intro l
  induction l with
  | nil => simp [dictInsert, dictLookup, hne]
  | cons kv rest ih =>
      obtain ⟨k0, v0⟩ := kv
      by_cases h0 : k0 = k'
      · subst h0
        rw [show dictInsert k0 v ((k0, v0) :: rest) = (k0, v) :: rest from by
          simp [dictInsert]]
        simp [dictLookup, hne]
      · simp only [dictInsert, if_neg h0]
        by_cases hk : k0 = k
        · simp [dictLookup, hk]
        · simp [dictLookup, hk, ih]

/-- Setting the dosage of another key leaves a lookup unchanged. -/
theorem dictLookup_dictSetDosage_ne (k k' dt : String) (hne : k' ≠ k) :
    ∀ l, dictLookup k (dictSetDosage k' dt l) = dictLookup k l := by
  intro l
  induction l with
  | nil => rfl
  | cons kv rest ih =>
      obtain ⟨k0, v0⟩ := kv
      by_cases h0 : k0 = k'
      · subst h0
        rw [show dictSetDosage k0 dt ((k0, v0) :: rest) =
            (k0, { v0 with dosage := some dt }) :: rest from by simp [dictSetDosage]]
        simp [dictLookup, hne]
      · simp only [dictSetDosage, if_neg h0]
        by_cases hk : k0 = k
        · simp [dictLookup, hk]
        · simp [dictLookup, hk, ih]

/-- Setting the dosage of a present key makes its record carry that dosage. -/
theorem dictLookup_dictSetDosage_self (k dt : String) :
    ∀ l, dictMem k l = true →
      (dictLookup k (dictSetDosage k dt l)).map (fun r => r.dosage) = some (some dt) := by
  intro l
  induction l with
  | nil => intro h; simp [dictMem] at h
  | cons kv rest ih =>
      obtain ⟨k0, v0⟩ := kv
      intro hmem
      by_cases h0 : k0 = k
      · subst h0
        simp [dictSetDosage, dictLookup]
      · simp only [dictSetDosage, if_neg h0, dictLookup]
        apply ih
        simp only [dictMem, List.any_cons, Bool.or_eq_true, decide_eq_true_eq] at hmem
        rcases hmem with h | h
        · exact absurd h h0
        · exact h

/-- Medication keys after the grouping fold are the prior keys plus the texts
of the MEDICATION entities seen. -/
theorem dictMem_fold (k : String) :
    ∀ (es : List MedicalEntity) (st : GroupState),
      dictMem k (es.foldl processGroupStep st).meds = true ↔
        dictMem k st.meds = true ∨
          ∃ m ∈ es, m.type = EntityType.MEDICATION ∧ m.text = k := by
  intro es
  induction es with
  | nil => intro st; simp
  | cons e rest ih =>
      intro st
      rw [List.foldl_cons, ih]
      have hstep : dictMem k (processGroupStep st e).meds = true ↔
          dictMem k st.meds = true ∨
            (e.type = EntityType.MEDICATION ∧ e.text = k) := by
        rcases hty : e.type with _ | _ | _ | _ | _ | _ <;>
          simp only [processGroupStep, hty]
        case MEDICATION =>
          rw [dictMem_dictInsert]
          constructor
          · rintro (h | h)
            · exact Or.inr ⟨trivial, h⟩
            · exact Or.inl h
          · rintro (h | ⟨_, h⟩)
            · exact Or.inr h
            · exact Or.inl h
        case DOSAGE =>
          rcases hl : linkOf e with _ | lm
          · simp [hty]
          · dsimp only
            split
            · simp [dictMem_dictSetDosage, hty]
            · simp [hty]
        all_goals simp [hty]
      rw [hstep]
      constructor
      · rintro (⟨h | h⟩ | ⟨m, hm, hmed⟩)
        · exact Or.inl h
        · exact Or.inr ⟨e, List.mem_cons_self _ _, h⟩
        · exact Or.inr ⟨m, List.mem_cons_of_mem _ hm, hmed⟩
      · rintro (h | ⟨m, hm, hmed⟩)
        · exact Or.inl (Or.inl h)
        · rcases List.mem_cons.mp hm with hm | hm
          · subst hm; exact Or.inl (Or.inr hmed)
          · exact Or.inr ⟨m, hm, hmed⟩

/-- The flat dosage bucket only ever grows. -/
theorem flat_mono (x : MedicalEntity) :
    ∀ (es : List MedicalEntity) (st : GroupState),
      x ∈ st.dosagesFlat → x ∈ (es.foldl processGroupStep st).dosagesFlat := by
  intro es
  induction es with
  | nil => intro st h; exact h
  | cons e rest ih =>
      intro st h
      rw [List.foldl_cons]
      apply ih
      rcases hty : e.type with _ | _ | _ | _ | _ | _ <;>
        simp only [processGroupStep, hty]
      case DOSAGE =>
        rcases hl : linkOf e with _ | lm
        · simp [h]
        · dsimp only
          split
          · exact h
          · simp [h]
      all_goals simp [h]

/-- Everything in the flat dosage bucket was there before or is one of the
folded entities. -/
theorem flat_src (x : MedicalEntity) :
    ∀ (es : List MedicalEntity) (st : GroupState),
      x ∈ (es.foldl processGroupStep st).dosagesFlat →
        x ∈ st.dosagesFlat ∨ x ∈ es := by
  intro es
  induction es with
  | nil => intro st h; exact Or.inl h
  | cons e rest ih =>
      intro st h
      rw [List.foldl_cons] at h
      rcases ih (processGroupStep st e) h with hin | hin
      · have hm : x ∈ st.dosagesFlat ∨ x = e := by
          rcases hty : e.type with _ | _ | _ | _ | _ | _ <;>
            simp only [processGroupStep, hty] at hin
          case MEDICATION => exact Or.inl hin
          case DOSAGE =>
            rcases hl : linkOf e with _ | lm
            · rw [hl] at hin
              simp only at hin
              rcases List.mem_append.mp hin with hx | hx
              · exact Or.inl hx
              · exact Or.inr (by simpa using hx)
            · rw [hl] at hin
              dsimp only at hin
              by_cases hc : lm ≠ "" ∧ dictMem lm st.meds = true
              · rw [if_pos hc] at hin
                exact Or.inl hin
              · rw [if_neg hc] at hin
                rcases List.mem_append.mp hin with hx | hx
                · exact Or.inl hx
                · exact Or.inr (by simpa using hx)
          all_goals exact Or.inl hin
        rcases hm with hx | hx
        · exact Or.inl hx
        · exact Or.inr (hx ▸ List.mem_cons_self _ _)
      · exact Or.inr (List.mem_cons_of_mem _ hin)

/-- With the dedup key `(lower-cased text, start)` unique, a split occurrence
is the only one. -/
theorem split_nodup_key (es pre post : List MedicalEntity) (d : MedicalEntity)
    (hsplit : es = pre ++ d :: post)
    (hnd : (es.map (fun e => (pyLower e.text, e.start_pos))).Nodup) :
    d ∉ pre ∧ d ∉ post := by
  subst hsplit
  rw [List.map_append, List.map_cons, List.nodup_append] at hnd
  obtain ⟨h1, h2, h3⟩ := hnd
  constructor
  · intro hdmem
    exact h3 (List.mem_map_of_mem _ hdmem) (List.mem_cons_self _ _)
  · intro hdmem
    rw [List.nodup_cons] at h2
    exact h2.1 (List.mem_map_of_mem _ hdmem)

/-- C10 (amended): in `process_document`'s grouping loop, a surviving DOSAGE
entity lands in the flat `dosages` bucket exactly when no surviving
MEDICATION entity with surface text equal to its `linked_medication`
*precedes* it in the filtered entity order (the loop builds the medication
map as it goes); when such a preceding medication exists — and no later
medication or dosage for the same key overwrites the record — the dosage's
text is embedded as that medication record's `dosage` field, and the dosage
entity is absent from the flat bucket (never in both places). -/
theorem dosage_grouping (es pre post : List MedicalEntity) (d : MedicalEntity)
    (hsplit : es = pre ++ d :: post) (hd : d.type = EntityType.DOSAGE)
    (hnd : (es.map (fun e => (pyLower e.text, e.start_pos))).Nodup) :
    (d ∈ (groupEntities es).dosagesFlat ↔
      ¬ ∃ lm, linkOf d = some lm ∧ lm ≠ "" ∧
        ∃ m ∈ pre, m.type = EntityType.MEDICATION ∧ m.text = lm)
    ∧ (∀ lm, linkOf d = some lm → lm ≠ "" →
        (∃ m ∈ pre, m.type = EntityType.MEDICATION ∧ m.text = lm) →
        (∀ m ∈ post, ¬(m.type = EntityType.MEDICATION ∧ m.text = lm)) →
        (∀ d2 ∈ post, ¬(d2.type = EntityType.DOSAGE ∧ linkOf d2 = some lm)) →
        (dictLookup lm (groupEntities es).meds).map (fun r => r.dosage) =
            some (some d.text)
          ∧ d ∉ (groupEntities es).dosagesFlat) := by
  obtain ⟨hdpre, hdpost⟩ := split_nodup_key es pre post d hsplit hnd
  have hfold : groupEntities es =
      post.foldl processGroupStep
        (processGroupStep (pre.foldl processGroupStep emptyGroupState) d) := by
    rw [hsplit]
    simp [groupEntities, List.foldl_append]
  have hmemA : ∀ lm, dictMem lm (pre.foldl processGroupStep emptyGroupState).meds = true ↔
      ∃ m ∈ pre, m.type = EntityType.MEDICATION ∧ m.text = lm := by
    intro lm
    rw [dictMem_fold]
    simp [emptyGroupState, dictMem]
  have hflatA : ∀ x, x ∈ (pre.foldl processGroupStep emptyGroupState).dosagesFlat →
      x ∈ pre := by
    intro x hx
    rcases flat_src x pre emptyGroupState hx with h | h
    · simp [emptyGroupState] at h
    · exact h
  constructor
  · constructor
    · intro hflat hex
      obtain ⟨lm, hlm, hne, hmpre⟩ := hex
      have hmem : dictMem lm (pre.foldl processGroupStep emptyGroupState).meds = true :=
        (hmemA lm).mpr hmpre
      have hB : processGroupStep (pre.foldl processGroupStep emptyGroupState) d =
          { pre.foldl processGroupStep emptyGroupState with
            meds := dictSetDosage lm d.text
              (pre.foldl processGroupStep emptyGroupState).meds } := by
        simp [processGroupStep, hd, hlm, hne, hmem]
      rw [hfold, hB] at hflat
      rcases flat_src d post _ hflat with hin | hin
      · exact hdpre (hflatA d hin)
      · exact hdpost hin
    · intro hnex
      have hB : d ∈ (processGroupStep (pre.foldl processGroupStep emptyGroupState)
          d).dosagesFlat := by
        cases hl : linkOf d with
        | none => simp [processGroupStep, hd, hl]
        | some lm =>
            by_cases hne : lm = ""
            · simp [processGroupStep, hd, hl, hne]
            · have hmem : ¬ dictMem lm
                  (pre.foldl processGroupStep emptyGroupState).meds = true := by
                intro hmem
                exact hnex ⟨lm, hl, hne, (hmemA lm).mp hmem⟩
              simp [processGroupStep, hd, hl, hmem]
      rw [hfold]
      exact flat_mono d post _ hB
  · intro lm hl hne hmpre hnomed hnodose
    have hmem : dictMem lm (pre.foldl processGroupStep emptyGroupState).meds = true :=
      (hmemA lm).mpr hmpre
    have hB : processGroupStep (pre.foldl processGroupStep emptyGroupState) d =
        { pre.foldl processGroupStep emptyGroupState with
          meds := dictSetDosage lm d.text
            (pre.foldl processGroupStep emptyGroupState).meds } := by
      simp [processGroupStep, hd, hl, hne, hmem]
    have hBlook : (dictLookup lm (processGroupStep
        (pre.foldl processGroupStep emptyGroupState) d).meds).map (fun r => r.dosage) =
        some (some d.text) := by
      rw [hB]
      exact dictLookup_dictSetDosage_self lm d.text _ hmem
    have hpres : ∀ (l : List MedicalEntity),
        (∀ m ∈ l, ¬(m.type = EntityType.MEDICATION ∧ m.text = lm)) →
        (∀ d2 ∈ l, ¬(d2.type = EntityType.DOSAGE ∧ linkOf d2 = some lm)) →
        ∀ st : GroupState,
          (dictLookup lm st.meds).map (fun r => r.dosage) = some (some d.text) →
          (dictLookup lm (l.foldl processGroupStep st).meds).map (fun r => r.dosage) =
            some (some d.text) := by
      intro l
      induction l with
      | nil => intro _ _ st h; exact h
      | cons e2 rest ih =>
          intro hm hd2 st h
          rw [List.foldl_cons]
          apply ih (fun m hm' => hm m (List.mem_cons_of_mem _ hm'))
            (fun x hx => hd2 x (List.mem_cons_of_mem _ hx))
          rcases hty : e2.type with _ | _ | _ | _ | _ | _ <;>
            simp only [processGroupStep, hty]
          case MEDICATION =>
            have hneq : e2.text ≠ lm := by
              intro heq
              exact hm e2 (List.mem_cons_self _ _) ⟨hty, heq⟩
            rw [dictLookup_dictInsert_ne lm e2.text _ hneq]
            exact h
          case DOSAGE =>
            cases hl2 : linkOf e2 with
            | none => exact h
            | some lm2 =>
                have hneq2 : lm2 ≠ lm := by
                  intro heq
                  exact hd2 e2 (List.mem_cons_self _ _) ⟨hty, heq ▸ hl2⟩
                dsimp only
                split
                · rw [dictLookup_dictSetDosage_ne lm lm2 _ hneq2]
                  exact h
                · exact h
          all_goals exact h
    constructor
    · rw [hfold]
      exact hpres post hnomed hnodose _ hBlook
    · intro hflat
      rw [hfold, hB] at hflat
      rcases flat_src d post _ hflat with hin | hin
      · exact hdpre (hflatA d hin)
      · exact hdpost hin

/-- The entities of the C10 scenario, as they come out of the earlier stages
for the text "500 mg metformin": the dosage candidate (fallback pattern 4)
precedes the medication candidate (fallback pattern 6), and post-processing
linked the dosage to "metformin" (distance 16 < 50). -/
def orderDoseEnt : MedicalEntity :=
  { text := "500 mg", type := .DOSAGE, start_pos := 0, end_pos := 6,
    confidence := 19/25,
    metadata := some { linked_medication := some "metformin", context := some "",
                       review_status := none } }

def orderMedEnt : MedicalEntity :=
  { text := "metformin", type := .MEDICATION, start_pos := 7, end_pos := 16,
    confidence := 171/200 }

/-- C10 counterexample: with the dosage occurring *before* its linked
medication in the surviving-entity order, the dosage's `linked_medication`
equals the text of a surviving MEDICATION entity and yet the dosage lands in
the flat bucket and the medication record keeps `dosage = None` — refuting
the claimed "embedded iff the linked medication survived". -/
theorem dosage_order_cex :
    (∃ e ∈ filterByConfidence defaultConfig [orderDoseEnt, orderMedEnt],
        e.type = EntityType.DOSAGE ∧ linkOf e = some "metformin")
    ∧ (∃ m ∈ filterByConfidence defaultConfig [orderDoseEnt, orderMedEnt],
        m.type = EntityType.MEDICATION ∧ m.text = "metformin")
    ∧ setReviewStatus orderDoseEnt "auto_accepted" ∈
        (groupEntities (filterByConfidence defaultConfig
          [orderDoseEnt, orderMedEnt])).dosagesFlat
    ∧ (dictLookup "metformin" (groupEntities (filterByConfidence defaultConfig
          [orderDoseEnt, orderMedEnt])).meds).map (fun r => r.dosage) =
        some none := by
  with_unfolding_all decide

/-- Witness for the amended C10: with the medication preceding the dosage,
the dosage text is embedded in the medication's record and the flat bucket
does not contain the dosage. -/
theorem dosage_grouping_witness :
    (dictLookup "metformin"
        (groupEntities [orderMedEnt, orderDoseEnt]).meds).map (fun r => r.dosage) =
      some (some "500 mg")
    ∧ orderDoseEnt ∉ (groupEntities [orderMedEnt, orderDoseEnt]).dosagesFlat :=
  (dosage_grouping [orderMedEnt, orderDoseEnt] [orderMedEnt] [] orderDoseEnt rfl rfl
      (by decide)).2 "metformin" rfl (by decide)
    ⟨orderMedEnt, List.mem_cons_self _ _, rfl, rfl⟩
    (by intro m hm; cases hm) (by intro d2 hd2; cases hd2)

/-- C2: at the default thresholds, every entity meets exactly one of the three
gate outcomes — kept as `auto_accepted` (confidence ≥ 0.50), kept as
`needs_review` (0.30 ≤ confidence < 0.50), or dropped (confidence < 0.30) —
and the gate's output contains exactly the images of the kept entities. -/
theorem gate_partition (e : MedicalEntity) (es : List MedicalEntity) :
    ((1/2 ≤ e.confidence ∧
        gateOne defaultConfig e = some (setReviewStatus e "auto_accepted"))
      ∨ (3/10 ≤ e.confidence ∧ e.confidence < 1/2 ∧
          gateOne defaultConfig e = some (setReviewStatus e "needs_review"))
      ∨ (e.confidence < 3/10 ∧ gateOne defaultConfig e = none))
    ∧ ¬(1/2 ≤ e.confidence ∧ e.confidence < 1/2)
    ∧ ¬(1/2 ≤ e.confidence ∧ e.confidence < 3/10)
    ∧ ¬(3/10 ≤ e.confidence ∧ e.confidence < 3/10)
    ∧ (∀ x, x ∈ filterByConfidence defaultConfig es ↔
        ∃ e0 ∈ es, gateOne defaultConfig e0 = some x) := by
  refine ⟨?_, by intro h; linarith [h.1, h.2], by intro h; linarith [h.1, h.2],
    by intro h; linarith [h.1, h.2], ?_⟩
  · rcases lt_or_le e.confidence (3/10 : ℚ) with h | h
    · right; right
      refine ⟨h, ?_⟩
      simp only [gateOne, defaultConfig]
      rw [if_neg (not_le.mpr (by linarith)), if_neg (not_le.mpr (by linarith))]
    · rcases lt_or_le e.confidence (1/2 : ℚ) with h2 | h2
      · right; left
        refine ⟨h, h2, ?_⟩
        simp only [gateOne, defaultConfig]
        rw [if_neg (not_le.mpr (by linarith)),
          if_pos (show (3:ℚ)/10 ≤ e.confidence by linarith)]
      · left
        refine ⟨h2, ?_⟩
        simp only [gateOne, defaultConfig]
        rw [if_pos (show (1:ℚ)/2 ≤ e.confidence by linarith)]
  · intro x
    simp [filterByConfidence, List.mem_filterMap]

/-- C9: the gate (and hence everything downstream of it) never reads
`REJECT_THRESHOLD` — two configurations agreeing on the accept and review
thresholds filter identically. -/
theorem reject_threshold_never_read (cfg1 cfg2 : NERConfig) (es : List MedicalEntity)
    (hacc : cfg1.AUTO_ACCEPT_THRESHOLD = cfg2.AUTO_ACCEPT_THRESHOLD)
    (hrev : cfg1.REVIEW_THRESHOLD = cfg2.REVIEW_THRESHOLD) :
    filterByConfidence cfg1 es = filterByConfidence cfg2 es := by
  have hg : gateOne cfg1 = gateOne cfg2 := by
    funext e; simp [gateOne, hacc, hrev]
  simp [filterByConfidence, hg]

/-- Witness for C9: two configurations differing only in `REJECT_THRESHOLD`
(0.20 vs 0.45) gate the same entity list identically. -/
theorem reject_threshold_never_read_witness :
    filterByConfidence defaultConfig
        [{ text := "fever", type := .SYMPTOM, start_pos := 0, end_pos := 5,
           confidence := 41/100 }] =
      filterByConfidence
        { AUTO_ACCEPT_THRESHOLD := 1/2, REVIEW_THRESHOLD := 3/10, REJECT_THRESHOLD := 9/20 }
        [{ text := "fever", type := .SYMPTOM, start_pos := 0, end_pos := 5,
           confidence := 41/100 }] :=
  reject_threshold_never_read defaultConfig
    { AUTO_ACCEPT_THRESHOLD := 1/2, REVIEW_THRESHOLD := 3/10, REJECT_THRESHOLD := 9/20 }
    _ rfl rfl

end MedicalNER
